import Mathlib

/-!
Verification of the HLS media-playlist handler (`src/player/media_playlist_handler.rs`).

The handler is a sans-I/O state machine: the host pulls `Action`s (fetch a URL,
arm a timer) and reports completions (`handle_data`, `handle_timeout`).  We embed
the handler state and its operations shallowly:

* `std::time::Duration` is modelled as a `Nat` counting nanoseconds; the
  `Duration / u32` operation of the Rust standard library is reproduced
  bit-for-bit by `durDiv` (it divides the seconds part and the nanoseconds part
  separately, which can round lower than plain nanosecond division).
* `VecDeque` becomes `List` (front = head, `push_back` = append).
* The external collaborators (the m3u8 parser of the `hls_m3u8` crate, URL
  resolution of the `url` crate, and the `mpeg2ts`/`mse_fmp4` remuxer) are
  modelled as an abstract environment `HostEnv` of fallible functions; the
  handler code under verification never inspects their internals.
* `Action` / `ActionFactory` / `ActionId` are declared in a sibling module that
  is not part of the sources at hand; they are modelled from the spec (each
  command carries a unique, host-opaque identity assigned at creation).
* Rust methods that mutate `&mut self` and return `Result<()>` become functions
  `state → state × Bool`: the returned state is the (possibly partially
  mutated) receiver, the boolean is `true` for `Ok` and `false` for `Err`.
  This keeps the state reached at an early `?`-return observable, exactly as
  the Rust caller observes it.
-/

namespace HlsWasm

/-- Modelled from the spec: the two outbound command kinds of the action
protocol (`FetchData(url)` and `SetTimer(duration)`); `Action` itself is
declared outside the sources at hand.  The duration is in nanoseconds. -/
inductive ActionKind where
  | fetchData (url : String)
  | setTimeout (duration : Nat)
deriving DecidableEq, Repr

/-- Modelled from the spec: a command together with its unique, host-opaque
identity assigned at creation. -/
structure Action where
  id : Nat
  kind : ActionKind
deriving DecidableEq, Repr

/-- Modelled from the spec: the factory handing out fresh action identities.
`fetch_data` and `set_timeout` are the two creation sites used by the handler;
uniqueness of identities is realised by a counter. -/
structure ActionFactory where
  next_id : Nat
deriving DecidableEq, Repr

/-- Modelled from the spec: create a `FetchData` command with a fresh id
(the Rust method takes `&mut self`, so the bumped factory is returned). -/
def ActionFactory.fetch_data (f : ActionFactory) (url : String) : Action × ActionFactory :=
  (⟨f.next_id, ActionKind.fetchData url⟩, ⟨f.next_id + 1⟩)

/-- Modelled from the spec: create a `SetTimer` command with a fresh id. -/
def ActionFactory.set_timeout (f : ActionFactory) (duration : Nat) : Action × ActionFactory :=
  (⟨f.next_id, ActionKind.setTimeout duration⟩, ⟨f.next_id + 1⟩)

/-- One parsed segment of a media playlist: its `EXTINF` duration in
nanoseconds and its (possibly relative) URI.  This is the interface the
handler consumes from the external `hls_m3u8` parser. -/
structure MediaSegment where
  duration : Nat
  uri : String
deriving DecidableEq, Repr

/-- A parsed media playlist as consumed by `handle_playlist`: the optional
`EXT-X-MEDIA-SEQUENCE` tag, the `EXT-X-TARGETDURATION` duration (nanoseconds)
and the ordered segment list. -/
structure MediaPlaylist where
  media_sequence : Option Nat
  target_duration : Nat
  segments : List MediaSegment
deriving DecidableEq, Repr

/-- The external collaborators of the handler, as fallible functions:
`parse_m3u8` covers `str::from_utf8` plus `m3u8.parse::<MediaPlaylist>()`,
`resolve_url` is `Url::options().base_url(..).parse(..)`,
`to_fmp4` is `mpeg2_ts::to_fmp4` returning abstract handles for the
initialization and media units, and `write_to` serializes such a handle. -/
structure HostEnv where
  parse_m3u8 : List Nat → Option MediaPlaylist
  resolve_url : String → String → Option String
  to_fmp4 : List Nat → Option (Nat × Nat)
  write_to : Nat → Option (List Nat)

/-- One entry of `segment_queue`: `(SequenceNumber, bool, Url)` in the Rust
source (the boolean records whether the fetch for this entry was already
dispatched). -/
structure SegmentEntry where
  seq : Nat
  fetch_started : Bool
  url : String
deriving DecidableEq, Repr

/-- The handler state, field for field as in the Rust struct.  Durations are
nanosecond counts. -/
structure MediaPlaylistHandler where
  media_playlist_url : String
  action_factory : ActionFactory
  action_queue : List Action
  segment_queue : List SegmentEntry
  buffered_segments : List (List Nat)
  last_media_sequence : Nat
  is_init : Bool
  fetch_playlist_action_id : Nat
  segments_total : Nat
  segment_durations_total : Nat
deriving DecidableEq, Repr

/-- `Duration / u32` of the Rust standard library: seconds and nanoseconds are
divided separately, with the remainder of the seconds division folded into the
nanosecond part.  For division by 2 this agrees with plain `n / 2`. -/
def durDiv (d : Nat) (rhs : Nat) : Nat :=
  let secs := d / 1000000000
  let nanos := d % 1000000000
  let s := secs / rhs
  let carry := secs % rhs
  let extra := carry * 1000000000 / rhs
  s * 1000000000 + (nanos / rhs + extra)

/-- `Duration::from_millis(u64::from(fetch_duration_ms / 2))`: the estimated
one-way transfer delay, in nanoseconds (the `u32` division by two floors to a
whole millisecond first). -/
def transfer_delay_of (fetch_duration_ms : Nat) : Nat :=
  (fetch_duration_ms / 2) * 1000000

/-- The guarded subtraction of lines 135-139: subtract the delay if it is
strictly smaller than the interval, otherwise clamp to the zero duration. -/
def floorSub (polling_interval transfer_delay : Nat) : Nat :=
  if polling_interval > transfer_delay then polling_interval - transfer_delay else 0

/-- `MediaPlaylistHandler::new`: queue an immediate manifest fetch and record
its id as the outstanding playlist fetch. -/
def MediaPlaylistHandler.new (action_factory : ActionFactory) (media_playlist_url : String) :
    MediaPlaylistHandler :=
  let af := action_factory.fetch_data media_playlist_url
  { media_playlist_url := media_playlist_url
    action_factory := af.2
    action_queue := [af.1]
    segment_queue := []
    buffered_segments := []
    last_media_sequence := 0
    is_init := false
    fetch_playlist_action_id := af.1.id
    segments_total := 0
    segment_durations_total := 0 }

/-- `handle_timeout`: the `ActionId` argument is ignored; a fresh manifest
fetch is queued and recorded as the outstanding playlist fetch.  Always `Ok`. -/
def MediaPlaylistHandler.handle_timeout (h : MediaPlaylistHandler) (_action_id : Nat) :
    MediaPlaylistHandler × Bool :=
  let af := h.action_factory.fetch_data h.media_playlist_url
  ({ h with action_factory := af.2
            action_queue := h.action_queue ++ [af.1]
            fetch_playlist_action_id := af.1.id }, true)

/-- The `while` loop of lines 96-101: pop front entries whose sequence number
is below the manifest's first sequence number. -/
def dropStaleFront (media_sequence : Nat) : List SegmentEntry → List SegmentEntry
  | [] => []
  | e :: rest =>
    if e.seq < media_sequence then dropStaleFront media_sequence rest else e :: rest

/-- Lines 112-114: advance the watermark and the running totals for a segment
about to be processed (this happens before its URL is resolved). -/
def bumpCounters (seq duration : Nat) (h : MediaPlaylistHandler) : MediaPlaylistHandler :=
  { h with last_media_sequence := seq
           segments_total := h.segments_total + 1
           segment_durations_total := h.segment_durations_total + duration }

/-- Lines 117-124: if the segment queue is empty the new segment's fetch is
dispatched at once and the entry is enqueued with `fetch_started = true`,
otherwise it is enqueued undispatched. -/
def dispatchAndEnqueue (seq : Nat) (segment_url : String) (h : MediaPlaylistHandler) :
    MediaPlaylistHandler :=
  if h.segment_queue.isEmpty then
    let af := h.action_factory.fetch_data segment_url
    { h with action_factory := af.2
             action_queue := h.action_queue ++ [af.1]
             segment_queue := h.segment_queue ++ [⟨seq, true, segment_url⟩] }
  else
    { h with segment_queue := h.segment_queue ++ [⟨seq, false, segment_url⟩] }

/-- The loop state of `handle_playlist`: the handler plus the two loop-local
variables `is_updated` and `polling_interval`. -/
structure PollState where
  h : MediaPlaylistHandler
  is_updated : Bool
  polling_interval : Nat
deriving DecidableEq, Repr

/-- The `for` loop of lines 105-126 over the manifest's segments, starting at
manifest-relative index `i`.  A segment whose absolute sequence number is at or
below the watermark is skipped; otherwise the counters are bumped, the URL is
resolved (an unresolvable URL aborts with `Err`, leaving the partially updated
state), the fetch is possibly dispatched, and the entry is enqueued. -/
def pollSegments (env : HostEnv) (media_sequence : Nat) :
    List MediaSegment → Nat → PollState → PollState × Bool
  | [], _, st => (st, true)
  | seg :: rest, i, st =>
    if media_sequence + i ≤ st.h.last_media_sequence then
      pollSegments env media_sequence rest (i + 1) st
    else
      let h1 := bumpCounters (media_sequence + i) seg.duration st.h
      match env.resolve_url h1.media_playlist_url seg.uri with
      | none => (⟨h1, true, st.polling_interval⟩, false)
      | some u =>
        pollSegments env media_sequence rest (i + 1)
          ⟨dispatchAndEnqueue (media_sequence + i) u h1, true,
           min st.polling_interval seg.duration⟩

/-- Lines 127-145 after the loop: clamp by the running average when any segment
was ever seen (otherwise reset the duration total), subtract the transfer
delay with a floor at zero, halve when nothing new was discovered, and arm the
refresh timer. -/
def finishPlaylist (st : PollState) (fetch_duration_ms : Nat) : MediaPlaylistHandler :=
  let pair :=
    if st.h.segments_total > 0 then
      (st.h, min st.polling_interval
        (durDiv st.h.segment_durations_total st.h.segments_total))
    else
      ({ st.h with segment_durations_total := 0 }, st.polling_interval)
  let p1 := floorSub pair.2 (transfer_delay_of fetch_duration_ms)
  let p2 := if st.is_updated then p1 else durDiv p1 2
  let af := pair.1.action_factory.set_timeout p2
  { pair.1 with action_factory := af.2
                action_queue := pair.1.action_queue ++ [af.1] }

/-- The state `handle_playlist` enters its loop with: the stale front entries
dropped, `is_updated = false`, and the polling interval started at the
manifest's target duration (lines 96-104). -/
def pollInit (h : MediaPlaylistHandler) (playlist : MediaPlaylist) : PollState :=
  ⟨{ h with segment_queue := dropStaleFront (playlist.media_sequence.getD 0) h.segment_queue },
    false, playlist.target_duration⟩

/-- `handle_playlist` on an already parsed manifest: drop stale front entries,
run the reconciliation loop, and (on success) run the interval estimator and
arm the refresh timer.  On failure the partially mutated state is returned
with `false`, exactly as the Rust `?` operator leaves `&mut self`. -/
def handle_playlist (env : HostEnv) (h : MediaPlaylistHandler) (playlist : MediaPlaylist)
    (fetch_duration_ms : Nat) : MediaPlaylistHandler × Bool :=
  match pollSegments env (playlist.media_sequence.getD 0) playlist.segments 0
      (pollInit h playlist) with
  | (st, false) => (st.h, false)
  | (st, true) => (finishPlaylist st fetch_duration_ms, true)

/-- Lines 150-158 of `handle_segment`: consume the front entry if its fetch was
already dispatched (an undispatched front entry is reinserted), then pop the
next entry, if any, and dispatch its fetch. -/
def segmentQueuePhase (h : MediaPlaylistHandler) : MediaPlaylistHandler :=
  let h1 :=
    match h.segment_queue with
    | [] => h
    | x :: rest => if x.fetch_started then { h with segment_queue := rest } else h
  match h1.segment_queue with
  | [] => h1
  | x :: rest =>
    let af := h1.action_factory.fetch_data x.url
    { h1 with action_factory := af.2
              action_queue := h1.action_queue ++ [af.1]
              segment_queue := rest }

/-- Lines 160-174 of `handle_segment`: remux the raw transport-stream bytes;
on the first successful segment serialize and push the initialization unit and
set the flag, then serialize and push the media unit.  Each fallible step that
fails returns `Err` with the state mutated so far. -/
def assembleSegment (env : HostEnv) (h : MediaPlaylistHandler) (ts_segment : List Nat) :
    MediaPlaylistHandler × Bool :=
  match env.to_fmp4 ts_segment with
  | none => (h, false)
  | some fmp4 =>
    if h.is_init then
      match env.write_to fmp4.2 with
      | none => (h, false)
      | some media =>
        ({ h with buffered_segments := h.buffered_segments ++ [media] }, true)
    else
      match env.write_to fmp4.1 with
      | none => (h, false)
      | some ini =>
        let h3 := { h with buffered_segments := h.buffered_segments ++ [ini], is_init := true }
        match env.write_to fmp4.2 with
        | none => (h3, false)
        | some media =>
          ({ h3 with buffered_segments := h3.buffered_segments ++ [media] }, true)

/-- `handle_segment`: queue bookkeeping and pipelined dispatch first, then
remux and emit payloads. -/
def handle_segment (env : HostEnv) (h : MediaPlaylistHandler) (ts_segment : List Nat) :
    MediaPlaylistHandler × Bool :=
  assembleSegment env (segmentQueuePhase h) ts_segment

/-- `handle_data`: a completion whose id matches the outstanding playlist
fetch is decoded and parsed as a manifest (failures of `str::from_utf8` and of
the parse leave the state untouched); every other completion is treated as
segment data. -/
def handle_data (env : HostEnv) (h : MediaPlaylistHandler) (action_id : Nat)
    (data : List Nat) (fetch_duration_ms : Nat) : MediaPlaylistHandler × Bool :=
  if action_id = h.fetch_playlist_action_id then
    match env.parse_m3u8 data with
    | none => (h, false)
    | some playlist => handle_playlist env h playlist fetch_duration_ms
  else
    handle_segment env h data

/-- `next_action`: pop the front of the action queue. -/
def next_action (h : MediaPlaylistHandler) : Option Action × MediaPlaylistHandler :=
  match h.action_queue with
  | [] => (none, h)
  | a :: rest => (some a, { h with action_queue := rest })

/-- `next_segment`: pop the front of the output queue. -/
def next_segment (h : MediaPlaylistHandler) : Option (List Nat) × MediaPlaylistHandler :=
  match h.buffered_segments with
  | [] => (none, h)
  | s :: rest => (some s, { h with buffered_segments := rest })

/-- Apply a sequence of manifest polls (parsed playlist plus measured fetch
duration), continuing past reported errors as a host may. -/
def runPolls (env : HostEnv) (h : MediaPlaylistHandler) :
    List (MediaPlaylist × Nat) → MediaPlaylistHandler
  | [] => h
  | (pl, f) :: rest => runPolls env (handle_playlist env h pl f).1 rest

/-- Apply a sequence of segment-data completions. -/
def runSegments (env : HostEnv) (h : MediaPlaylistHandler) :
    List (List Nat) → MediaPlaylistHandler
  | [] => h
  | s :: rest => runSegments env (handle_segment env h s).1 rest

/-- The interval computed by the estimator tail of `handle_playlist` as a pure
function of its inputs: the base interval left by the loop (target duration
clamped by the new segments' durations), the session totals, the measured
fetch duration and the `is_updated` flag.  `is_updated = true` gives the
value with the halving step omitted. -/
def estimatorFinish (is_updated : Bool)
    (base segments_total durations_total fetch_duration_ms : Nat) : Nat :=
  let pi := if segments_total > 0 then min base (durDiv durations_total segments_total) else base
  let p1 := floorSub pi (transfer_delay_of fetch_duration_ms)
  if is_updated then p1 else durDiv p1 2

/-- Is this command a `FetchData`? -/
def ActionKind.isFetchData : ActionKind → Bool
  | .fetchData _ => true
  | .setTimeout _ => false

/-- Is this command a `SetTimer`? -/
def ActionKind.isSetTimeout : ActionKind → Bool
  | .fetchData _ => false
  | .setTimeout _ => true

/-- A session as driven by the host: the handler plus bookkeeping the host can
observe — the identities of all manifest-fetch commands ever created (those
are assigned in `new` and `handle_timeout`, which immediately record them in
`fetch_playlist_action_id`) and the identities whose completions were already
delivered.  A `FetchData` command is pending-or-in-flight exactly when it was
created and its completion was not yet delivered; host-side pulls from the
action queue do not change that set, so they need not be modelled. -/
structure Driver where
  handler : MediaPlaylistHandler
  manifest_ids : List Nat
  completed : List Nat
deriving Repr

/-- A fresh session: `new` queues a manifest fetch whose id is the first
manifest id. -/
def Driver.init (fac : ActionFactory) (url : String) : Driver :=
  let h := MediaPlaylistHandler.new fac url
  ⟨h, [h.fetch_playlist_action_id], []⟩

/-- A completion reported by the host: data for a fetch, or a fired timer. -/
inductive HostEv where
  | data (action_id : Nat) (payload : List Nat) (fetch_duration_ms : Nat)
  | timer (action_id : Nat)
deriving DecidableEq, Repr

/-- Deliver one completion to the session. -/
def stepEv (env : HostEnv) (d : Driver) : HostEv → Driver
  | .data action_id payload fetch_duration_ms =>
    { handler := (handle_data env d.handler action_id payload fetch_duration_ms).1
      manifest_ids := d.manifest_ids
      completed := action_id :: d.completed }
  | .timer action_id =>
    let h := (d.handler.handle_timeout action_id).1
    { handler := h
      manifest_ids := h.fetch_playlist_action_id :: d.manifest_ids
      completed := d.completed }

/-- Deliver a list of completions in order. -/
def runEvents (env : HostEnv) (d : Driver) : List HostEv → Driver
  | [] => d
  | ev :: rest => runEvents env (stepEv env d ev) rest

/-- Does this command count as a pending-or-in-flight segment-data fetch?  It
must be a `FetchData`, not one of the manifest fetches, and not yet
completed. -/
def countedSegFetch (manifest_ids completed : List Nat) (a : Action) : Bool :=
  match a.kind with
  | .fetchData _ => !(manifest_ids.contains a.id) && !(completed.contains a.id)
  | .setTimeout _ => false

/-- The number of segment-data `FetchData` commands currently pending in the
action queue or in flight. -/
def segFetchCount (d : Driver) : Nat :=
  (d.handler.action_queue.filter (countedSegFetch d.manifest_ids d.completed)).length

/-- The host contract of the action protocol: a data completion answers a
`FetchData` command that was actually created and was not answered before; a
timer completion answers a created `SetTimer` command. -/
def evLegal (d : Driver) : HostEv → Bool
  | .data action_id _ _ =>
    d.handler.action_queue.any (fun a => a.id == action_id && a.kind.isFetchData) &&
    !(d.completed.contains action_id)
  | .timer action_id =>
    d.handler.action_queue.any (fun a => a.id == action_id && a.kind.isSetTimeout)

/-- The restricted host interleavings of the amended single-fetch claim: on
top of the host contract, (a) no completion of a superseded manifest fetch is
delivered (its id is a manifest id but no longer the current
`fetch_playlist_action_id`; the handler would misroute it to
`handle_segment`), and (b) a manifest completion is delivered only when either
no segment fetch is outstanding or the advertised window still overlaps the
queue, i.e. dropping the stale front leaves the segment queue nonempty. -/
def evOk (env : HostEnv) (d : Driver) : HostEv → Bool
  | .data action_id payload fetch_duration_ms =>
    evLegal d (.data action_id payload fetch_duration_ms) &&
    (!(d.manifest_ids.contains action_id) || (action_id == d.handler.fetch_playlist_action_id)) &&
    (if action_id == d.handler.fetch_playlist_action_id then
      match env.parse_m3u8 payload with
      | none => true
      | some pl =>
        (segFetchCount d == 0) ||
        !(dropStaleFront (pl.media_sequence.getD 0) d.handler.segment_queue).isEmpty
     else true)
  | .timer action_id => evLegal d (.timer action_id)

/-- Every event of the trace satisfies the host contract (in sequence). -/
def trace_legal (env : HostEnv) (d : Driver) : List HostEv → Bool
  | [] => true
  | ev :: rest => evLegal d ev && trace_legal env (stepEv env d ev) rest

/-- Every event of the trace satisfies the restricted interleaving. -/
def trace_ok (env : HostEnv) (d : Driver) : List HostEv → Bool
  | [] => true
  | ev :: rest => evOk env d ev && trace_ok env (stepEv env d ev) rest

/-- The sequence numbers enqueued by one poll: the part of the resulting
segment queue beyond the retained (stale-dropped) prefix of the old queue. -/
def enqueuedDuring (env : HostEnv) (h : MediaPlaylistHandler) (pl : MediaPlaylist)
    (f : Nat) : List Nat :=
  ((handle_playlist env h pl f).1.segment_queue.map (fun e => e.seq)).drop
    (dropStaleFront (pl.media_sequence.getD 0) h.segment_queue).length

/-- All sequence numbers enqueued over a whole sequence of polls, in order. -/
def allEnqueued (env : HostEnv) (h : MediaPlaylistHandler) :
    List (MediaPlaylist × Nat) → List Nat
  | [] => []
  | (pl, f) :: rest =>
    enqueuedDuring env h pl f ++ allEnqueued env (handle_playlist env h pl f).1 rest

/-! Concrete instances used by witnesses and counterexamples. -/

/-- A two-segment live manifest starting at sequence number 1. -/
def pl_a : MediaPlaylist :=
  ⟨some 1, 2000000000, [⟨1000000000, "seg-a1"⟩, ⟨1000000000, "seg-a2"⟩]⟩

/-- A follow-up manifest whose window moved to sequence number 3. -/
def pl_b : MediaPlaylist := ⟨some 3, 2000000000, [⟨1000000000, "seg-b1"⟩]⟩

/-- The spec scenario of C7: target 6 s, segments 10 (5 s) and 11 (7 s). -/
def pl_c7 : MediaPlaylist :=
  ⟨some 10, 6000000000, [⟨5000000000, "seg-10"⟩, ⟨7000000000, "seg-11"⟩]⟩

/-- A manifest with a single one-nanosecond segment (durations are opaque
`Duration` values to the handler, so nothing rules this out). -/
def pl_tiny : MediaPlaylist := ⟨some 1, 2000000000, [⟨1, "seg-t"⟩]⟩

/-- A manifest whose only segment has an unresolvable URI. -/
def pl_bad : MediaPlaylist := ⟨some 5, 6000000000, [⟨2000000000, "bad"⟩]⟩

/-- The C8 scenario: one new 5 s segment against a 6 s target. -/
def pl_c8 : MediaPlaylist := ⟨some 1, 6000000000, [⟨5000000000, "seg-c8"⟩]⟩

/-- The C9 scenario: a manifest advertising first sequence number 0. -/
def pl_zero : MediaPlaylist := ⟨some 0, 6000000000, [⟨2000000000, "seg-0"⟩]⟩

/-- A concrete well-behaved environment: payload `[1]` parses to `pl_a`,
payload `[2]` to `pl_b`; URIs resolve to themselves; every remux succeeds. -/
def envA : HostEnv :=
  { parse_m3u8 := fun p => if p = [1] then some pl_a else if p = [2] then some pl_b else none
    resolve_url := fun _ u => some u
    to_fmp4 := fun _ => some (0, 1)
    write_to := fun n => some [n] }

/-- An environment in which the URI `bad` fails to resolve. -/
def envBad : HostEnv :=
  { parse_m3u8 := fun _ => none
    resolve_url := fun _ u => if u = "bad" then none else some u
    to_fmp4 := fun _ => some (0, 1)
    write_to := fun n => some [n] }

/-- A factory starting at id 0. -/
def fac0 : ActionFactory := ⟨0⟩

/-- A fresh session on the manifest URL `live.m3u8`. -/
def driver0 : Driver := Driver.init fac0 "live.m3u8"

/-- The interleaving that defeats the single-fetch claim: the first manifest
discovers segments 1 and 2 (fetch for 1 dispatched); segment 1 completes, so
the fetch for segment 2 is dispatched and its entry leaves the queue; the
refresh timer fires; the second manifest arrives while the fetch for segment 2
is still in flight, finds the queue empty and dispatches segment 3 at once. -/
def c1_trace : List HostEv :=
  [HostEv.data 0 [1] 400, HostEv.data 1 [9] 100, HostEv.timer 2, HostEv.data 4 [2] 400]

/-- The queue invariant of the session: `segment_queue` is strictly
increasing by sequence number and every entry is at or below the
`last_media_sequence` watermark. -/
def SessionInv (h : MediaPlaylistHandler) : Prop :=
  List.Pairwise (fun a b => a.seq < b.seq) h.segment_queue ∧
  ∀ e ∈ h.segment_queue, e.seq ≤ h.last_media_sequence

/-- `p` is the serialized initialization unit of some delivered segment. -/
def IsInitPayload (env : HostEnv) (inputs : List (List Nat)) (p : List Nat) : Prop :=
  ∃ s a b, s ∈ inputs ∧ env.to_fmp4 s = some (a, b) ∧ env.write_to a = some p

/-- `p` is the serialized media unit of some delivered segment. -/
def IsMediaPayload (env : HostEnv) (inputs : List (List Nat)) (p : List Nat) : Prop :=
  ∃ s a b, s ∈ inputs ∧ env.to_fmp4 s = some (a, b) ∧ env.write_to b = some p

/-- The inductive invariant of the driven session: identities are fresh and
distinct, the current playlist-fetch id is a recorded manifest id, and — the
payload of the single-fetch property — at most one segment fetch is pending
or in flight, with exactly one whenever the segment queue is nonempty. -/
def DriverInv (d : Driver) : Prop :=
  (∀ a ∈ d.handler.action_queue, a.id < d.handler.action_factory.next_id) ∧
  (∀ m ∈ d.manifest_ids, m < d.handler.action_factory.next_id) ∧
  (∀ c ∈ d.completed, c < d.handler.action_factory.next_id) ∧
  d.handler.fetch_playlist_action_id ∈ d.manifest_ids ∧
  (d.handler.action_queue.map (fun a => a.id)).Nodup ∧
  segFetchCount d ≤ 1 ∧
  (d.handler.segment_queue ≠ [] → segFetchCount d = 1)

/-- The C4 scenario state: the queue holds entries 10 and 11, both unfetched,
and the watermark is 11. -/
def h_c4 : MediaPlaylistHandler :=
  { media_playlist_url := "live.m3u8"
    action_factory := ⟨5⟩
    action_queue := []
    segment_queue := [⟨10, false, "seg-10"⟩, ⟨11, false, "seg-11"⟩]
    buffered_segments := []
    last_media_sequence := 11
    is_init := false
    fetch_playlist_action_id := 0
    segments_total := 2
    segment_durations_total := 4000000000 }

/-- The C4 scenario manifest: the window moved to first sequence number 12
(no segments the session does not already know). -/
def pl_c4 : MediaPlaylist := ⟨some 12, 6000000000, []⟩

/-! Basic characterization lemmas for the building blocks of
`handle_playlist` and `handle_segment`. -/

theorem dropStaleFront_eq_dropWhile (media_sequence : Nat) :
    ∀ q : List SegmentEntry,
      dropStaleFront media_sequence q = q.dropWhile (fun e => decide (e.seq < media_sequence)) := by
  intro q
  induction q with
  | nil => rfl
  | cons e rest ih =>
    by_cases hlt : e.seq < media_sequence
    · simp [dropStaleFront, List.dropWhile, hlt, ih]
    · simp [dropStaleFront, List.dropWhile, hlt]

theorem dropStaleFront_sublist (media_sequence : Nat) :
    ∀ q : List SegmentEntry, (dropStaleFront media_sequence q).Sublist q := by
  intro q
  induction q with
  | nil => simp [dropStaleFront]
  | cons e rest ih =>
    by_cases hlt : e.seq < media_sequence
    · simp only [dropStaleFront, if_pos hlt]
      exact ih.cons e
    · simp only [dropStaleFront, if_neg hlt]
      exact List.Sublist.refl _

theorem bumpCounters_fields (seq duration : Nat) (h : MediaPlaylistHandler) :
    (bumpCounters seq duration h).media_playlist_url = h.media_playlist_url ∧
    (bumpCounters seq duration h).action_factory = h.action_factory ∧
    (bumpCounters seq duration h).action_queue = h.action_queue ∧
    (bumpCounters seq duration h).segment_queue = h.segment_queue ∧
    (bumpCounters seq duration h).buffered_segments = h.buffered_segments ∧
    (bumpCounters seq duration h).last_media_sequence = seq ∧
    (bumpCounters seq duration h).is_init = h.is_init ∧
    (bumpCounters seq duration h).fetch_playlist_action_id = h.fetch_playlist_action_id := by
  simp [bumpCounters]

theorem dispatchAndEnqueue_queue (seq : Nat) (u : String) (h : MediaPlaylistHandler) :
    (dispatchAndEnqueue seq u h).segment_queue
      = h.segment_queue ++ [⟨seq, h.segment_queue.isEmpty, u⟩] := by
  by_cases he : h.segment_queue.isEmpty
  · simp [dispatchAndEnqueue, he]
  · simp [dispatchAndEnqueue, he]

theorem dispatchAndEnqueue_frame (seq : Nat) (u : String) (h : MediaPlaylistHandler) :
    (dispatchAndEnqueue seq u h).media_playlist_url = h.media_playlist_url ∧
    (dispatchAndEnqueue seq u h).buffered_segments = h.buffered_segments ∧
    (dispatchAndEnqueue seq u h).last_media_sequence = h.last_media_sequence ∧
    (dispatchAndEnqueue seq u h).is_init = h.is_init ∧
    (dispatchAndEnqueue seq u h).fetch_playlist_action_id = h.fetch_playlist_action_id ∧
    (dispatchAndEnqueue seq u h).segments_total = h.segments_total ∧
    (dispatchAndEnqueue seq u h).segment_durations_total = h.segment_durations_total := by
  by_cases he : h.segment_queue.isEmpty
  · simp [dispatchAndEnqueue, he]
  · simp [dispatchAndEnqueue, he]

theorem dispatchAndEnqueue_actions (seq : Nat) (u : String) (h : MediaPlaylistHandler) :
    ∃ acts,
      (dispatchAndEnqueue seq u h).action_queue = h.action_queue ++ acts ∧
      (dispatchAndEnqueue seq u h).action_factory.next_id
        = h.action_factory.next_id + acts.length ∧
      ((h.segment_queue = [] ∧
          acts = [⟨h.action_factory.next_id, ActionKind.fetchData u⟩]) ∨
        (h.segment_queue ≠ [] ∧ acts = [])) := by
  by_cases he : h.segment_queue.isEmpty
  · refine ⟨[⟨h.action_factory.next_id, ActionKind.fetchData u⟩], ?_, ?_, ?_⟩
    · simp [dispatchAndEnqueue, he, ActionFactory.fetch_data]
    · simp [dispatchAndEnqueue, he, ActionFactory.fetch_data]
    · exact Or.inl ⟨List.isEmpty_iff.mp he, rfl⟩
  · refine ⟨[], ?_, ?_, ?_⟩
    · simp [dispatchAndEnqueue, he]
    · simp [dispatchAndEnqueue, he]
    · exact Or.inr ⟨fun hq => he (by simp [hq]), rfl⟩

theorem pollSegments_nil (env : HostEnv) (ms i : Nat) (st : PollState) :
    pollSegments env ms [] i st = (st, true) := rfl

theorem pollSegments_cons_old (env : HostEnv) (ms : Nat) (seg : MediaSegment)
    (rest : List MediaSegment) (i : Nat) (st : PollState)
    (hskip : ms + i ≤ st.h.last_media_sequence) :
    pollSegments env ms (seg :: rest) i st = pollSegments env ms rest (i + 1) st := by
  simp [pollSegments, hskip]

theorem pollSegments_cons_new (env : HostEnv) (ms : Nat) (seg : MediaSegment)
    (rest : List MediaSegment) (i : Nat) (st : PollState)
    (hskip : ¬ ms + i ≤ st.h.last_media_sequence) :
    pollSegments env ms (seg :: rest) i st =
      match env.resolve_url st.h.media_playlist_url seg.uri with
      | none => (⟨bumpCounters (ms + i) seg.duration st.h, true, st.polling_interval⟩, false)
      | some u =>
        pollSegments env ms rest (i + 1)
          ⟨dispatchAndEnqueue (ms + i) u (bumpCounters (ms + i) seg.duration st.h), true,
            min st.polling_interval seg.duration⟩ := by
  simp only [pollSegments, if_neg hskip]
  rfl

theorem pollSegments_cons_err (env : HostEnv) (ms : Nat) (seg : MediaSegment)
    (rest : List MediaSegment) (i : Nat) (st : PollState)
    (hskip : ¬ ms + i ≤ st.h.last_media_sequence)
    (hres : env.resolve_url st.h.media_playlist_url seg.uri = none) :
    pollSegments env ms (seg :: rest) i st =
      (⟨bumpCounters (ms + i) seg.duration st.h, true, st.polling_interval⟩, false) := by
  rw [pollSegments_cons_new env ms seg rest i st hskip, hres]

theorem pollSegments_cons_some (env : HostEnv) (ms : Nat) (seg : MediaSegment)
    (rest : List MediaSegment) (i : Nat) (st : PollState) (u : String)
    (hskip : ¬ ms + i ≤ st.h.last_media_sequence)
    (hres : env.resolve_url st.h.media_playlist_url seg.uri = some u) :
    pollSegments env ms (seg :: rest) i st =
      pollSegments env ms rest (i + 1)
        ⟨dispatchAndEnqueue (ms + i) u (bumpCounters (ms + i) seg.duration st.h), true,
          min st.polling_interval seg.duration⟩ := by
  rw [pollSegments_cons_new env ms seg rest i st hskip, hres]

theorem pollSegments_frame (env : HostEnv) (ms : Nat) :
    ∀ (segs : List MediaSegment) (i : Nat) (st : PollState),
      (pollSegments env ms segs i st).1.h.media_playlist_url = st.h.media_playlist_url ∧
      (pollSegments env ms segs i st).1.h.fetch_playlist_action_id
        = st.h.fetch_playlist_action_id ∧
      (pollSegments env ms segs i st).1.h.is_init = st.h.is_init ∧
      (pollSegments env ms segs i st).1.h.buffered_segments = st.h.buffered_segments := by
  intro segs
  induction segs with
  | nil => intro i st; simp [pollSegments_nil]
  | cons seg rest ih =>
    intro i st
    by_cases hskip : ms + i ≤ st.h.last_media_sequence
    · simpa [pollSegments_cons_old env ms seg rest i st hskip] using ih (i + 1) st
    · rw [pollSegments_cons_new env ms seg rest i st hskip]
      cases hres : env.resolve_url st.h.media_playlist_url seg.uri with
      | none => simp [bumpCounters]
      | some u =>
        have hih := ih (i + 1)
          ⟨dispatchAndEnqueue (ms + i) u (bumpCounters (ms + i) seg.duration st.h), true,
            min st.polling_interval seg.duration⟩
        obtain ⟨d1, d2, d3, d4, d5, d6, d7⟩ :=
          dispatchAndEnqueue_frame (ms + i) u (bumpCounters (ms + i) seg.duration st.h)
        obtain ⟨b1, b2, b3, b4, b5, b6, b7, b8⟩ := bumpCounters_fields (ms + i) seg.duration st.h
        exact ⟨by rw [hih.1, d1, b1], by rw [hih.2.1, d5, b8], by rw [hih.2.2.1, d4, b7],
          by rw [hih.2.2.2, d2, b5]⟩

theorem pollSegments_queue_char (env : HostEnv) (ms : Nat) :
    ∀ (segs : List MediaSegment) (i : Nat) (st : PollState),
      ∃ ne,
        (pollSegments env ms segs i st).1.h.segment_queue = st.h.segment_queue ++ ne ∧
        List.Pairwise (fun a b => a.seq < b.seq) ne ∧
        (∀ e ∈ ne, st.h.last_media_sequence < e.seq ∧
          e.seq ≤ (pollSegments env ms segs i st).1.h.last_media_sequence) ∧
        st.h.last_media_sequence ≤ (pollSegments env ms segs i st).1.h.last_media_sequence := by
  intro segs
  induction segs with
  | nil =>
    intro i st
    exact ⟨[], by simp [pollSegments_nil], by simp, by simp, le_refl _⟩
  | cons seg rest ih =>
    intro i st
    by_cases hskip : ms + i ≤ st.h.last_media_sequence
    · simpa [pollSegments_cons_old env ms seg rest i st hskip] using ih (i + 1) st
    · rw [pollSegments_cons_new env ms seg rest i st hskip]
      cases hres : env.resolve_url st.h.media_playlist_url seg.uri with
      | none =>
        refine ⟨[], by simp [bumpCounters], by simp, by simp, ?_⟩
        simp only [bumpCounters]
        exact le_of_lt (Nat.lt_of_not_le hskip)
      | some u =>
        set h1 := bumpCounters (ms + i) seg.duration st.h with hh1
        set st2 : PollState :=
          ⟨dispatchAndEnqueue (ms + i) u h1, true, min st.polling_interval seg.duration⟩ with hst2
        obtain ⟨ne, hq, hpw, hbound, hmono⟩ := ih (i + 1) st2
        obtain ⟨d1, d2, d3, d4, d5, d6, d7⟩ := dispatchAndEnqueue_frame (ms + i) u h1
        have hlast2 : st2.h.last_media_sequence = ms + i := by
          rw [hst2]
          simpa [hh1, bumpCounters] using d3
        have hq2 : st2.h.segment_queue
            = st.h.segment_queue ++ [⟨ms + i, h1.segment_queue.isEmpty, u⟩] := by
          rw [hst2]
          rw [dispatchAndEnqueue_queue]
          simp [hh1, bumpCounters]
        refine ⟨⟨ms + i, h1.segment_queue.isEmpty, u⟩ :: ne, ?_, ?_, ?_, ?_⟩
        · rw [hq, hq2]
          simp
        · refine List.pairwise_cons.mpr ⟨?_, hpw⟩
          intro e he
          have := (hbound e he).1
          rw [hlast2] at this
          exact this
        · intro e he
          rcases List.mem_cons.mp he with he0 | hee
          · subst he0
            refine ⟨Nat.lt_of_not_le hskip, ?_⟩
            calc (ms + i : Nat) = st2.h.last_media_sequence := hlast2.symm
              _ ≤ _ := hmono
          · have hb := hbound e hee
            refine ⟨?_, hb.2⟩
            have : st.h.last_media_sequence < ms + i := Nat.lt_of_not_le hskip
            calc st.h.last_media_sequence < ms + i := this
              _ = st2.h.last_media_sequence := hlast2.symm
              _ < e.seq := by
                have := hb.1
                exact this
        · calc st.h.last_media_sequence ≤ ms + i := le_of_lt (Nat.lt_of_not_le hskip)
            _ = st2.h.last_media_sequence := hlast2.symm
            _ ≤ _ := hmono

theorem pollSegments_actions_char (env : HostEnv) (ms : Nat) :
    ∀ (segs : List MediaSegment) (i : Nat) (st : PollState),
      ∃ acts,
        (pollSegments env ms segs i st).1.h.action_queue = st.h.action_queue ++ acts ∧
        (pollSegments env ms segs i st).1.h.action_factory.next_id
          = st.h.action_factory.next_id + acts.length ∧
        (acts = [] ∨ ∃ k sg u,
          segs.get? k = some sg ∧
          st.h.last_media_sequence < ms + (i + k) ∧
          env.resolve_url st.h.media_playlist_url sg.uri = some u ∧
          acts = [⟨st.h.action_factory.next_id, ActionKind.fetchData u⟩]) ∧
        (st.h.segment_queue ≠ [] → acts = []) ∧
        (acts ≠ [] → (pollSegments env ms segs i st).1.h.segment_queue ≠ []) ∧
        (st.h.segment_queue = [] → (pollSegments env ms segs i st).1.h.segment_queue ≠ [] →
          acts ≠ []) := by
  intro segs
  induction segs with
  | nil =>
    intro i st
    refine ⟨[], by simp [pollSegments_nil], by simp [pollSegments_nil], Or.inl rfl,
      fun _ => rfl, fun hne => absurd rfl hne, ?_⟩
    intro hq hq2
    rw [pollSegments_nil] at hq2
    exact absurd hq hq2
  | cons seg rest ih =>
    intro i st
    by_cases hskip : ms + i ≤ st.h.last_media_sequence
    · rw [pollSegments_cons_old env ms seg rest i st hskip]
      obtain ⟨acts, ha1, ha2, ha3, ha4, ha5, ha6⟩ := ih (i + 1) st
      refine ⟨acts, ha1, ha2, ?_, ha4, ha5, ha6⟩
      rcases ha3 with h | ⟨k, sg, u, hget, hlt, hres, hacts⟩
      · exact Or.inl h
      · refine Or.inr ⟨k + 1, sg, u, by simpa using hget, ?_, hres, hacts⟩
        have : ms + (i + 1 + k) = ms + (i + (k + 1)) := by ring
        rw [← this]
        exact hlt
    · rw [pollSegments_cons_new env ms seg rest i st hskip]
      cases hres : env.resolve_url st.h.media_playlist_url seg.uri with
      | none =>
        refine ⟨[], by simp [bumpCounters], by simp [bumpCounters], Or.inl rfl,
          fun _ => rfl, fun hne => absurd rfl hne, ?_⟩
        intro hq hq2
        simp only [bumpCounters] at hq2
        exact absurd hq hq2
      | some u =>
        set h1 := bumpCounters (ms + i) seg.duration st.h with hh1
        set st2 : PollState :=
          ⟨dispatchAndEnqueue (ms + i) u h1, true, min st.polling_interval seg.duration⟩ with hst2
        obtain ⟨acts, ha1, ha2, ha3, ha4, ha5, ha6⟩ := ih (i + 1) st2
        obtain ⟨ne, hq, _, _, _⟩ := pollSegments_queue_char env ms rest (i + 1) st2
        have hq2 : st2.h.segment_queue
            = st.h.segment_queue ++ [⟨ms + i, h1.segment_queue.isEmpty, u⟩] := by
          rw [hst2]
          rw [dispatchAndEnqueue_queue]
          simp [hh1, bumpCounters]
        have hq2ne : st2.h.segment_queue ≠ [] := by
          rw [hq2]
          simp
        have hacts0 : acts = [] := ha4 hq2ne
        subst hacts0
        have hresqne : (pollSegments env ms rest (i + 1) st2).1.h.segment_queue ≠ [] := by
          rw [hq, hq2]
          simp
        by_cases hqe : st.h.segment_queue = []
        · -- the new segment is dispatched
          refine ⟨[⟨st.h.action_factory.next_id, ActionKind.fetchData u⟩], ?_, ?_, ?_, ?_, ?_, ?_⟩
          · rw [ha1]
            have : st2.h.action_queue = st.h.action_queue
                ++ [⟨st.h.action_factory.next_id, ActionKind.fetchData u⟩] := by
              rw [hst2]
              simp only [dispatchAndEnqueue, hh1]
              simp [bumpCounters, hqe, ActionFactory.fetch_data]
            rw [this]
            simp
          · rw [ha2]
            have : st2.h.action_factory.next_id = st.h.action_factory.next_id + 1 := by
              rw [hst2]
              simp only [dispatchAndEnqueue, hh1]
              simp [bumpCounters, hqe, ActionFactory.fetch_data]
            rw [this]
            simp
          · exact Or.inr ⟨0, seg, u, rfl, by simpa using Nat.lt_of_not_le hskip, hres, rfl⟩
          · intro hne
            exact absurd hqe hne
          · intro _
            exact hresqne
          · intro _ _
            simp
        · -- the queue was nonempty: no dispatch
          refine ⟨[], ?_, ?_, Or.inl rfl, fun _ => rfl, fun hne => absurd rfl hne, ?_⟩
          · rw [ha1]
            have : st2.h.action_queue = st.h.action_queue := by
              rw [hst2]
              simp only [dispatchAndEnqueue, hh1]
              simp [bumpCounters, hqe]
            rw [this]
          · rw [ha2]
            have : st2.h.action_factory.next_id = st.h.action_factory.next_id := by
              rw [hst2]
              simp only [dispatchAndEnqueue, hh1]
              simp [bumpCounters, hqe]
            rw [this]
          · intro hq0 _
            exact absurd hq0 hqe

theorem pollSegments_all_old (env : HostEnv) (ms : Nat) :
    ∀ (segs : List MediaSegment) (i : Nat) (st : PollState),
      (∀ k sg, segs.get? k = some sg → ms + (i + k) ≤ st.h.last_media_sequence) →
      pollSegments env ms segs i st = (st, true) := by
  intro segs
  induction segs with
  | nil => intro i st _; rfl
  | cons seg rest ih =>
    intro i st hall
    have hskip : ms + i ≤ st.h.last_media_sequence := by
      simpa using hall 0 seg rfl
    rw [pollSegments_cons_old env ms seg rest i st hskip]
    refine ih (i + 1) st ?_
    intro k sg hget
    have := hall (k + 1) sg (by simpa using hget)
    have harith : ms + (i + (k + 1)) = ms + (i + 1 + k) := by ring
    rw [harith] at this
    exact this

theorem pollSegments_err (env : HostEnv) (ms : Nat) :
    ∀ (segs : List MediaSegment) (i : Nat) (st : PollState),
      (pollSegments env ms segs i st).2 = false →
      ∃ k sg,
        segs.get? k = some sg ∧
        env.resolve_url st.h.media_playlist_url sg.uri = none ∧
        (pollSegments env ms (segs.take k) i st).2 = true ∧
        (pollSegments env ms (segs.take k) i st).1.h.last_media_sequence < ms + (i + k) ∧
        (pollSegments env ms segs i st).1 =
          ⟨bumpCounters (ms + (i + k)) sg.duration
              (pollSegments env ms (segs.take k) i st).1.h,
            true, (pollSegments env ms (segs.take k) i st).1.polling_interval⟩ := by
  intro segs
  induction segs with
  | nil =>
    intro i st herr
    rw [pollSegments_nil] at herr
    exact absurd herr (by simp)
  | cons seg rest ih =>
    intro i st herr
    by_cases hskip : ms + i ≤ st.h.last_media_sequence
    · rw [pollSegments_cons_old env ms seg rest i st hskip] at herr
      obtain ⟨k, sg, hget, hres, hok, hlt, heq⟩ := ih (i + 1) st herr
      refine ⟨k + 1, sg, by simpa using hget, hres, ?_, ?_, ?_⟩
      · rw [List.take_succ_cons, pollSegments_cons_old env ms seg _ i st hskip]
        exact hok
      · rw [List.take_succ_cons, pollSegments_cons_old env ms seg _ i st hskip]
        have harith : ms + (i + (k + 1)) = ms + (i + 1 + k) := by ring
        rw [harith]
        exact hlt
      · rw [pollSegments_cons_old env ms seg rest i st hskip, heq,
          List.take_succ_cons, pollSegments_cons_old env ms seg _ i st hskip]
        have harith : ms + (i + (k + 1)) = ms + (i + 1 + k) := by ring
        rw [harith]
    · cases hres : env.resolve_url st.h.media_playlist_url seg.uri with
      | none =>
        refine ⟨0, seg, rfl, hres, by rw [List.take_zero, pollSegments_nil], ?_, ?_⟩
        · rw [List.take_zero, pollSegments_nil]
          simpa using Nat.lt_of_not_le hskip
        · rw [List.take_zero, pollSegments_nil,
            pollSegments_cons_err env ms seg rest i st hskip hres]
          simp
      | some u =>
        rw [pollSegments_cons_some env ms seg rest i st u hskip hres] at herr
        set st2 : PollState :=
          ⟨dispatchAndEnqueue (ms + i) u (bumpCounters (ms + i) seg.duration st.h), true,
            min st.polling_interval seg.duration⟩ with hst2
        obtain ⟨k, sg, hget, hres2, hok, hlt, heq⟩ := ih (i + 1) st2 herr
        have hurl : st2.h.media_playlist_url = st.h.media_playlist_url := by
          rw [hst2]
          have hd := dispatchAndEnqueue_frame (ms + i) u (bumpCounters (ms + i) seg.duration st.h)
          rw [hd.1]
          simp [bumpCounters]
        rw [hurl] at hres2
        refine ⟨k + 1, sg, by simpa using hget, hres2, ?_, ?_, ?_⟩
        · rw [List.take_succ_cons, pollSegments_cons_some env ms seg _ i st u hskip hres]
          exact hok
        · rw [List.take_succ_cons, pollSegments_cons_some env ms seg _ i st u hskip hres]
          have harith : ms + (i + (k + 1)) = ms + (i + 1 + k) := by ring
          rw [harith]
          exact hlt
        · rw [pollSegments_cons_some env ms seg rest i st u hskip hres, heq,
            List.take_succ_cons, pollSegments_cons_some env ms seg _ i st u hskip hres]
          have harith : ms + (i + (k + 1)) = ms + (i + 1 + k) := by ring
          rw [harith]

theorem finishPlaylist_char (st : PollState) (f : Nat) :
    (finishPlaylist st f).action_queue = st.h.action_queue ++
      [⟨st.h.action_factory.next_id, ActionKind.setTimeout
        (estimatorFinish st.is_updated st.polling_interval st.h.segments_total
          st.h.segment_durations_total f)⟩] ∧
    (finishPlaylist st f).segment_queue = st.h.segment_queue ∧
    (finishPlaylist st f).last_media_sequence = st.h.last_media_sequence ∧
    (finishPlaylist st f).media_playlist_url = st.h.media_playlist_url ∧
    (finishPlaylist st f).fetch_playlist_action_id = st.h.fetch_playlist_action_id ∧
    (finishPlaylist st f).is_init = st.h.is_init ∧
    (finishPlaylist st f).buffered_segments = st.h.buffered_segments ∧
    (finishPlaylist st f).action_factory.next_id = st.h.action_factory.next_id + 1 ∧
    (finishPlaylist st f).segments_total = st.h.segments_total := by
  by_cases ht : st.h.segments_total > 0
  · simp [finishPlaylist, estimatorFinish, ht, ActionFactory.set_timeout]
  · simp [finishPlaylist, estimatorFinish, ht, ActionFactory.set_timeout]

theorem handle_playlist_ok (env : HostEnv) (h : MediaPlaylistHandler) (pl : MediaPlaylist)
    (f : Nat) (st : PollState)
    (hpoll : pollSegments env (pl.media_sequence.getD 0) pl.segments 0 (pollInit h pl)
      = (st, true)) :
    handle_playlist env h pl f = (finishPlaylist st f, true) := by
  unfold handle_playlist
  rw [hpoll]

theorem handle_playlist_err (env : HostEnv) (h : MediaPlaylistHandler) (pl : MediaPlaylist)
    (f : Nat) (st : PollState)
    (hpoll : pollSegments env (pl.media_sequence.getD 0) pl.segments 0 (pollInit h pl)
      = (st, false)) :
    handle_playlist env h pl f = (st.h, false) := by
  unfold handle_playlist
  rw [hpoll]

theorem handle_playlist_frame (env : HostEnv) (h : MediaPlaylistHandler) (pl : MediaPlaylist)
    (f : Nat) :
    (handle_playlist env h pl f).1.media_playlist_url = h.media_playlist_url ∧
    (handle_playlist env h pl f).1.fetch_playlist_action_id = h.fetch_playlist_action_id ∧
    (handle_playlist env h pl f).1.is_init = h.is_init ∧
    (handle_playlist env h pl f).1.buffered_segments = h.buffered_segments := by
  have hfr := pollSegments_frame env (pl.media_sequence.getD 0) pl.segments 0 (pollInit h pl)
  cases hpoll : pollSegments env (pl.media_sequence.getD 0) pl.segments 0 (pollInit h pl) with
  | mk st ok =>
    rw [hpoll] at hfr
    have hinit : (pollInit h pl).h.media_playlist_url = h.media_playlist_url ∧
        (pollInit h pl).h.fetch_playlist_action_id = h.fetch_playlist_action_id ∧
        (pollInit h pl).h.is_init = h.is_init ∧
        (pollInit h pl).h.buffered_segments = h.buffered_segments := by
      simp [pollInit]
    cases ok with
    | false =>
      rw [handle_playlist_err env h pl f st hpoll]
      exact ⟨hfr.1.trans hinit.1, hfr.2.1.trans hinit.2.1, hfr.2.2.1.trans hinit.2.2.1,
        hfr.2.2.2.trans hinit.2.2.2⟩
    | true =>
      rw [handle_playlist_ok env h pl f st hpoll]
      obtain ⟨_, _, _, c4, c5, c6, c7, _, _⟩ := finishPlaylist_char st f
      exact ⟨c4.trans (hfr.1.trans hinit.1), c5.trans (hfr.2.1.trans hinit.2.1),
        c6.trans (hfr.2.2.1.trans hinit.2.2.1), c7.trans (hfr.2.2.2.trans hinit.2.2.2)⟩

theorem handle_playlist_queue_char (env : HostEnv) (h : MediaPlaylistHandler)
    (pl : MediaPlaylist) (f : Nat) :
    ∃ ne,
      (handle_playlist env h pl f).1.segment_queue
        = dropStaleFront (pl.media_sequence.getD 0) h.segment_queue ++ ne ∧
      List.Pairwise (fun a b => a.seq < b.seq) ne ∧
      (∀ e ∈ ne, h.last_media_sequence < e.seq ∧
        e.seq ≤ (handle_playlist env h pl f).1.last_media_sequence) ∧
      h.last_media_sequence ≤ (handle_playlist env h pl f).1.last_media_sequence := by
  obtain ⟨ne, hq, hpw, hbound, hmono⟩ :=
    pollSegments_queue_char env (pl.media_sequence.getD 0) pl.segments 0 (pollInit h pl)
  have hinitq : (pollInit h pl).h.segment_queue
      = dropStaleFront (pl.media_sequence.getD 0) h.segment_queue := by
    simp [pollInit]
  have hinitl : (pollInit h pl).h.last_media_sequence = h.last_media_sequence := by
    simp [pollInit]
  rw [hinitq] at hq
  rw [hinitl] at hbound hmono
  cases hpoll : pollSegments env (pl.media_sequence.getD 0) pl.segments 0 (pollInit h pl) with
  | mk st ok =>
    rw [hpoll] at hq hbound hmono
    cases ok with
    | false =>
      rw [handle_playlist_err env h pl f st hpoll]
      exact ⟨ne, hq, hpw, hbound, hmono⟩
    | true =>
      rw [handle_playlist_ok env h pl f st hpoll]
      obtain ⟨_, c2, c3, _⟩ := finishPlaylist_char st f
      rw [c2, c3]
      exact ⟨ne, hq, hpw, hbound, hmono⟩

theorem handle_playlist_actions_char (env : HostEnv) (h : MediaPlaylistHandler)
    (pl : MediaPlaylist) (f : Nat) :
    ∃ facts tail,
      (handle_playlist env h pl f).1.action_queue = h.action_queue ++ facts ++ tail ∧
      (handle_playlist env h pl f).1.action_factory.next_id
        = h.action_factory.next_id + facts.length + tail.length ∧
      (facts = [] ∨ ∃ u k sg,
        pl.segments.get? k = some sg ∧
        h.last_media_sequence < pl.media_sequence.getD 0 + k ∧
        env.resolve_url h.media_playlist_url sg.uri = some u ∧
        facts = [⟨h.action_factory.next_id, ActionKind.fetchData u⟩]) ∧
      (tail = [] ∨ ∃ dur,
        tail = [⟨h.action_factory.next_id + facts.length, ActionKind.setTimeout dur⟩]) ∧
      ((handle_playlist env h pl f).2 = false → tail = []) ∧
      (dropStaleFront (pl.media_sequence.getD 0) h.segment_queue ≠ [] → facts = []) ∧
      (facts ≠ [] → (handle_playlist env h pl f).1.segment_queue ≠ []) ∧
      (dropStaleFront (pl.media_sequence.getD 0) h.segment_queue = [] →
        (handle_playlist env h pl f).1.segment_queue ≠ [] → facts ≠ []) := by
  obtain ⟨acts, ha1, ha2, ha3, ha4, ha5, ha6⟩ :=
    pollSegments_actions_char env (pl.media_sequence.getD 0) pl.segments 0 (pollInit h pl)
  have hia : (pollInit h pl).h.action_queue = h.action_queue := by simp [pollInit]
  have hif : (pollInit h pl).h.action_factory = h.action_factory := by simp [pollInit]
  have hil : (pollInit h pl).h.last_media_sequence = h.last_media_sequence := by
    simp [pollInit]
  have hiu : (pollInit h pl).h.media_playlist_url = h.media_playlist_url := by simp [pollInit]
  have hiq : (pollInit h pl).h.segment_queue
      = dropStaleFront (pl.media_sequence.getD 0) h.segment_queue := by
    simp [pollInit]
  rw [hia] at ha1
  rw [hif] at ha2
  rw [hil, hiu, hif] at ha3
  rw [hiq] at ha4 ha6
  have ha3' : acts = [] ∨ ∃ u k sg,
      pl.segments.get? k = some sg ∧
      h.last_media_sequence < pl.media_sequence.getD 0 + k ∧
      env.resolve_url h.media_playlist_url sg.uri = some u ∧
      acts = [⟨h.action_factory.next_id, ActionKind.fetchData u⟩] := by
    rcases ha3 with h0 | ⟨k, sg, u, hget, hlt, hres, heq⟩
    · exact Or.inl h0
    · exact Or.inr ⟨u, k, sg, hget, by simpa using hlt, hres, heq⟩
  cases hpoll : pollSegments env (pl.media_sequence.getD 0) pl.segments 0 (pollInit h pl) with
  | mk st ok =>
    rw [hpoll] at ha1 ha2 ha5 ha6
    cases ok with
    | false =>
      rw [handle_playlist_err env h pl f st hpoll]
      refine ⟨acts, [], ?_, ?_, ha3', Or.inl rfl, fun _ => rfl, ha4, ha5, ha6⟩
      · simpa using ha1
      · simpa using ha2
    | true =>
      rw [handle_playlist_ok env h pl f st hpoll]
      obtain ⟨c1, c2, _, _, _, _, _, c8, _⟩ := finishPlaylist_char st f
      refine ⟨acts,
        [⟨h.action_factory.next_id + acts.length, ActionKind.setTimeout
          (estimatorFinish st.is_updated st.polling_interval st.h.segments_total
            st.h.segment_durations_total f)⟩], ?_, ?_, ha3', ?_, ?_, ha4, ?_, ?_⟩
      · rw [c1, ha1, ha2]
      · rw [c8, ha2]
        simp
      · exact Or.inr ⟨_, rfl⟩
      · intro hfalse
        simp at hfalse
      · intro hne
        rw [c2]
        exact ha5 hne
      · intro hdrop hne
        rw [c2] at hne
        exact ha6 hdrop hne

/-- C10: `handle_timeout` never inspects its `ActionId` argument: for every
argument value (including ids of timers the core never issued) it
unconditionally enqueues a `FetchData` command for the manifest URL,
overwrites `fetch_playlist_action_id` with the new command's id — so the
completion of any previously outstanding manifest fetch (whose id differs
from the new one) is thereafter routed to `handle_segment` — and returns
`Ok`. -/
theorem c10_handle_timeout_ignores_argument :
    ∀ (h : MediaPlaylistHandler) (id1 id2 : Nat) (env : HostEnv) (data : List Nat)
      (f old_id : Nat),
      h.handle_timeout id1 = h.handle_timeout id2 ∧
      (h.handle_timeout id1).2 = true ∧
      (h.handle_timeout id1).1.action_queue = h.action_queue ++
        [⟨h.action_factory.next_id, ActionKind.fetchData h.media_playlist_url⟩] ∧
      (h.handle_timeout id1).1.fetch_playlist_action_id = h.action_factory.next_id ∧
      (old_id ≠ h.action_factory.next_id →
        handle_data env (h.handle_timeout id1).1 old_id data f
          = handle_segment env (h.handle_timeout id1).1 data) := by
  intro h id1 id2 env data f old_id
  have hfp : (h.handle_timeout id1).1.fetch_playlist_action_id = h.action_factory.next_id := by
    simp [MediaPlaylistHandler.handle_timeout, ActionFactory.fetch_data]
  refine ⟨rfl, rfl, ?_, hfp, ?_⟩
  · simp [MediaPlaylistHandler.handle_timeout, ActionFactory.fetch_data]
  · intro hne
    rw [handle_data, hfp, if_neg hne]

/-- C10 witness: on a fresh session, after a timeout the completion of the
original manifest fetch (id 0, superseded by the new fetch with id 1) is
handled as segment data. -/
theorem c10_handle_timeout_ignores_argument_witness :
    handle_data envA ((MediaPlaylistHandler.new fac0 "live.m3u8").handle_timeout 7).1 0 [9] 5
      = handle_segment envA ((MediaPlaylistHandler.new fac0 "live.m3u8").handle_timeout 7).1
          [9] :=
  (c10_handle_timeout_ignores_argument (MediaPlaylistHandler.new fac0 "live.m3u8") 7 99 envA
    [9] 5 0).2.2.2.2 (by decide)

theorem sessionInv_new (fac : ActionFactory) (url : String) :
    SessionInv (MediaPlaylistHandler.new fac url) := by
  constructor
  · simp [MediaPlaylistHandler.new]
  · simp [MediaPlaylistHandler.new]

theorem sessionInv_step (env : HostEnv) (h : MediaPlaylistHandler) (pl : MediaPlaylist)
    (f : Nat) (hinv : SessionInv h) : SessionInv (handle_playlist env h pl f).1 := by
  obtain ⟨ne, hq, hpw, hbound, hmono⟩ := handle_playlist_queue_char env h pl f
  have hsub := dropStaleFront_sublist (pl.media_sequence.getD 0) h.segment_queue
  constructor
  · rw [hq]
    refine List.pairwise_append.mpr ⟨List.Pairwise.sublist hsub hinv.1, hpw, ?_⟩
    intro a ha b hb
    have ha2 : a ∈ h.segment_queue := hsub.subset ha
    have := hinv.2 a ha2
    exact lt_of_le_of_lt this (hbound b hb).1
  · intro e he
    rw [hq] at he
    rcases List.mem_append.mp he with hd | hn
    · exact le_trans (hinv.2 e (hsub.subset hd)) hmono
    · exact (hbound e hn).2

theorem runPolls_inv (env : HostEnv) :
    ∀ (polls : List (MediaPlaylist × Nat)) (h : MediaPlaylistHandler),
      SessionInv h → SessionInv (runPolls env h polls) := by
  intro polls
  induction polls with
  | nil => intro h hinv; exact hinv
  | cons p rest ih =>
    intro h hinv
    exact ih _ (sessionInv_step env h p.1 p.2 hinv)

theorem runPolls_append (env : HostEnv) :
    ∀ (l1 l2 : List (MediaPlaylist × Nat)) (h : MediaPlaylistHandler),
      runPolls env h (l1 ++ l2) = runPolls env (runPolls env h l1) l2 := by
  intro l1
  induction l1 with
  | nil => intro l2 h; rfl
  | cons p rest ih =>
    intro l2 h
    cases p with
    | mk pl f => simpa [runPolls] using ih l2 (handle_playlist env h pl f).1

theorem handle_playlist_last_mono (env : HostEnv) (h : MediaPlaylistHandler)
    (pl : MediaPlaylist) (f : Nat) :
    h.last_media_sequence ≤ (handle_playlist env h pl f).1.last_media_sequence :=
  (handle_playlist_queue_char env h pl f).choose_spec.2.2.2

theorem runPolls_last_mono (env : HostEnv) :
    ∀ (polls : List (MediaPlaylist × Nat)) (h : MediaPlaylistHandler),
      h.last_media_sequence ≤ (runPolls env h polls).last_media_sequence := by
  intro polls
  induction polls with
  | nil => intro h; exact le_refl _
  | cons p rest ih =>
    intro h
    cases p with
    | mk pl f =>
      exact le_trans (handle_playlist_last_mono env h pl f) (ih (handle_playlist env h pl f).1)

theorem enqueuedDuring_spec (env : HostEnv) (h : MediaPlaylistHandler) (pl : MediaPlaylist)
    (f : Nat) :
    List.Pairwise (· < ·) (enqueuedDuring env h pl f) ∧
    ∀ x ∈ enqueuedDuring env h pl f,
      h.last_media_sequence < x ∧
      x ≤ (handle_playlist env h pl f).1.last_media_sequence := by
  obtain ⟨ne, hq, hpw, hbound, _⟩ := handle_playlist_queue_char env h pl f
  have hdrop : enqueuedDuring env h pl f = ne.map (fun e => e.seq) := by
    unfold enqueuedDuring
    rw [hq, List.map_append]
    have hlen : (dropStaleFront (pl.media_sequence.getD 0) h.segment_queue).length
        = ((dropStaleFront (pl.media_sequence.getD 0) h.segment_queue).map
            (fun e => e.seq)).length := by
      simp
    rw [hlen, List.drop_left]
  rw [hdrop]
  constructor
  · exact hpw.map _ (fun a b hab => hab)
  · intro x hx
    obtain ⟨e, he, hex⟩ := List.mem_map.mp hx
    subst hex
    exact hbound e he

theorem allEnqueued_spec (env : HostEnv) :
    ∀ (polls : List (MediaPlaylist × Nat)) (h : MediaPlaylistHandler),
      List.Pairwise (· < ·) (allEnqueued env h polls) ∧
      ∀ x ∈ allEnqueued env h polls, h.last_media_sequence < x := by
  intro polls
  induction polls with
  | nil => intro h; simp [allEnqueued]
  | cons p rest ih =>
    intro h
    cases p with
    | mk pl f =>
      obtain ⟨hpw1, hbd1⟩ := enqueuedDuring_spec env h pl f
      obtain ⟨hpw2, hbd2⟩ := ih (handle_playlist env h pl f).1
      constructor
      · simp only [allEnqueued]
        refine List.pairwise_append.mpr ⟨hpw1, hpw2, ?_⟩
        intro a ha b hb
        exact lt_of_le_of_lt (hbd1 a ha).2 (hbd2 b hb)
      · intro x hx
        simp only [allEnqueued] at hx
        rcases List.mem_append.mp hx with h1 | h2
        · exact (hbd1 x h1).1
        · exact lt_of_le_of_lt (handle_playlist_last_mono env h pl f) (hbd2 x h2)

/-- C2: over every sequence of manifest polls from a fresh session (arbitrary
first sequence numbers and segment lists, errors included),
`last_media_sequence` is monotonically non-decreasing, `segment_queue` stays
strictly increasing by sequence number, and the sequence numbers enqueued over
the whole life of the session are strictly increasing — in particular no
sequence number is ever enqueued twice. -/
theorem c2_watermark_monotone_no_duplicates :
    ∀ (env : HostEnv) (fac : ActionFactory) (url : String)
      (polls : List (MediaPlaylist × Nat)),
      (∀ n : Nat,
        (runPolls env (MediaPlaylistHandler.new fac url)
          (polls.take n)).last_media_sequence ≤
        (runPolls env (MediaPlaylistHandler.new fac url)
          (polls.take (n + 1))).last_media_sequence) ∧
      List.Pairwise (fun a b => a.seq < b.seq)
        (runPolls env (MediaPlaylistHandler.new fac url) polls).segment_queue ∧
      List.Pairwise (· < ·) (allEnqueued env (MediaPlaylistHandler.new fac url) polls) ∧
      (allEnqueued env (MediaPlaylistHandler.new fac url) polls).Nodup := by
  intro env fac url polls
  refine ⟨?_, ?_, ?_, ?_⟩
  · intro n
    rw [List.take_succ, runPolls_append]
    cases hget : polls[n]? with
    | none => exact le_refl _
    | some p =>
      cases p with
      | mk pl f => exact handle_playlist_last_mono env _ pl f
  · exact (runPolls_inv env polls _ (sessionInv_new fac url)).1
  · exact (allEnqueued_spec env polls _).1
  · exact List.Pairwise.imp (fun hlt => Nat.ne_of_lt hlt) (allEnqueued_spec env polls _).1

/-- C4: a manifest whose first sequence number has moved past the front of
the queue makes `handle_playlist` remove exactly the front entries whose
sequence number is below it (`dropStaleFront` is front-maximal, i.e. a
`dropWhile`); the queue beyond the retained prefix holds only genuinely new
segments; every command the poll appends is either a timer or a fetch for a
genuinely new, resolved segment (so dropped entries never produce a
`FetchData`); and when the manifest holds nothing new the poll succeeds with
`last_media_sequence` unchanged — the drop itself reports no error and moves
no watermark. -/
theorem c4_stale_front_dropped_silently :
    ∀ (env : HostEnv) (h : MediaPlaylistHandler) (pl : MediaPlaylist) (f : Nat),
      dropStaleFront (pl.media_sequence.getD 0) h.segment_queue
        = h.segment_queue.dropWhile (fun e => decide (e.seq < pl.media_sequence.getD 0)) ∧
      (∃ ne, (handle_playlist env h pl f).1.segment_queue
          = dropStaleFront (pl.media_sequence.getD 0) h.segment_queue ++ ne ∧
        ∀ e ∈ ne, h.last_media_sequence < e.seq) ∧
      (∀ a ∈ (handle_playlist env h pl f).1.action_queue,
        a ∈ h.action_queue ∨ (∃ dur, a.kind = ActionKind.setTimeout dur) ∨
        ∃ u k sg, pl.segments.get? k = some sg ∧
          h.last_media_sequence < pl.media_sequence.getD 0 + k ∧
          env.resolve_url h.media_playlist_url sg.uri = some u ∧
          a.kind = ActionKind.fetchData u) ∧
      ((∀ k sg, pl.segments.get? k = some sg →
          pl.media_sequence.getD 0 + k ≤ h.last_media_sequence) →
        (handle_playlist env h pl f).2 = true ∧
        (handle_playlist env h pl f).1.last_media_sequence = h.last_media_sequence ∧
        (handle_playlist env h pl f).1.segment_queue
          = dropStaleFront (pl.media_sequence.getD 0) h.segment_queue ∧
        ∃ dur, (handle_playlist env h pl f).1.action_queue
          = h.action_queue ++ [⟨h.action_factory.next_id, ActionKind.setTimeout dur⟩]) := by
  intro env h pl f
  refine ⟨dropStaleFront_eq_dropWhile _ _, ?_, ?_, ?_⟩
  · obtain ⟨ne, hq, _, hbound, _⟩ := handle_playlist_queue_char env h pl f
    exact ⟨ne, hq, fun e he => (hbound e he).1⟩
  · intro a ha
    obtain ⟨facts, tail, ha1, _, ha3, ha4, _, _, _, _⟩ := handle_playlist_actions_char env h pl f
    rw [ha1] at ha
    rcases List.mem_append.mp ha with hm | ht
    · rcases List.mem_append.mp hm with ho | hf
      · exact Or.inl ho
      · rcases ha3 with hnil | ⟨u, k, sg, hget, hlt, hres, heq⟩
        · rw [hnil] at hf
          exact absurd hf (List.not_mem_nil a)
        · rw [heq] at hf
          have : a = ⟨h.action_factory.next_id, ActionKind.fetchData u⟩ := by
            simpa using hf
          exact Or.inr (Or.inr ⟨u, k, sg, hget, hlt, hres, by rw [this]⟩)
    · rcases ha4 with hnil | ⟨dur, heq⟩
      · rw [hnil] at ht
        exact absurd ht (List.not_mem_nil a)
      · rw [heq] at ht
        have : a = ⟨h.action_factory.next_id + facts.length, ActionKind.setTimeout dur⟩ := by
          simpa using ht
        exact Or.inr (Or.inl ⟨dur, by rw [this]⟩)
  · intro hold
    have hall : ∀ k sg, pl.segments.get? k = some sg →
        pl.media_sequence.getD 0 + (0 + k) ≤ (pollInit h pl).h.last_media_sequence := by
      intro k sg hget
      have := hold k sg hget
      simpa [pollInit] using this
    have hpoll := pollSegments_all_old env (pl.media_sequence.getD 0) pl.segments 0
      (pollInit h pl) hall
    rw [handle_playlist_ok env h pl f (pollInit h pl) hpoll]
    obtain ⟨c1, c2, c3, _, _, _, _, _, _⟩ := finishPlaylist_char (pollInit h pl) f
    refine ⟨rfl, ?_, ?_, ?_⟩
    · rw [c3]
      simp [pollInit]
    · rw [c2]
      simp [pollInit]
    · refine ⟨estimatorFinish (pollInit h pl).is_updated (pollInit h pl).polling_interval
        (pollInit h pl).h.segments_total (pollInit h pl).h.segment_durations_total f, ?_⟩
      rw [c1]
      simp [pollInit]

/-- C4 witness: the spec scenario — queue holds 10 and 11 unfetched, the
manifest advertises first sequence number 12 with nothing new: both entries
are dropped, the poll succeeds, the watermark stays 11 and the only command
issued is the refresh timer. -/
theorem c4_stale_front_dropped_silently_witness :
    (handle_playlist envA h_c4 pl_c4 0).2 = true ∧
    (handle_playlist envA h_c4 pl_c4 0).1.last_media_sequence = h_c4.last_media_sequence ∧
    (handle_playlist envA h_c4 pl_c4 0).1.segment_queue
      = dropStaleFront (pl_c4.media_sequence.getD 0) h_c4.segment_queue ∧
    ∃ dur, (handle_playlist envA h_c4 pl_c4 0).1.action_queue
      = h_c4.action_queue ++ [⟨h_c4.action_factory.next_id, ActionKind.setTimeout dur⟩] :=
  (c4_stale_front_dropped_silently envA h_c4 pl_c4 0).2.2.2 (by
    intro k sg hget
    simp [pl_c4] at hget)

theorem handle_playlist_seq_pos (env : HostEnv) (h : MediaPlaylistHandler)
    (pl : MediaPlaylist) (f : Nat)
    (hpos : ∀ e ∈ h.segment_queue, 1 ≤ e.seq) :
    ∀ e ∈ (handle_playlist env h pl f).1.segment_queue, 1 ≤ e.seq := by
  obtain ⟨ne, hq, _, hbound, _⟩ := handle_playlist_queue_char env h pl f
  intro e he
  rw [hq] at he
  rcases List.mem_append.mp he with hd | hn
  · exact hpos e ((dropStaleFront_sublist _ _).subset hd)
  · have := (hbound e hn).1
    omega

theorem runPolls_seq_pos (env : HostEnv) :
    ∀ (polls : List (MediaPlaylist × Nat)) (h : MediaPlaylistHandler),
      (∀ e ∈ h.segment_queue, 1 ≤ e.seq) →
      ∀ e ∈ (runPolls env h polls).segment_queue, 1 ≤ e.seq := by
  intro polls
  induction polls with
  | nil => intro h hpos; exact hpos
  | cons p rest ih =>
    intro h hpos
    exact ih _ (handle_playlist_seq_pos env h p.1 p.2 hpos)

/-- C9: a segment with absolute sequence number 0 can never be enqueued —
the session starts with `last_media_sequence = 0` and only segments with
sequence number strictly above the watermark are enqueued, so every entry
ever queued has sequence number at least 1; concretely, a fresh session
handling a manifest whose first sequence number is 0 silently skips the
segment at manifest index 0 (the poll succeeds, nothing is enqueued or
counted, and the watermark stays 0) even though that segment was never seen
before. -/
theorem c9_sequence_zero_never_enqueued :
    ∀ (env : HostEnv) (fac : ActionFactory) (url : String)
      (polls : List (MediaPlaylist × Nat)),
      ((runPolls env (MediaPlaylistHandler.new fac url) polls).segment_queue.all
        (fun e => decide (1 ≤ e.seq)) = true) ∧
      (handle_playlist envA (MediaPlaylistHandler.new fac0 "live.m3u8") pl_zero 0).2 = true ∧
      (handle_playlist envA (MediaPlaylistHandler.new fac0 "live.m3u8")
        pl_zero 0).1.segment_queue = [] ∧
      (handle_playlist envA (MediaPlaylistHandler.new fac0 "live.m3u8")
        pl_zero 0).1.last_media_sequence = 0 ∧
      (handle_playlist envA (MediaPlaylistHandler.new fac0 "live.m3u8")
        pl_zero 0).1.segments_total = 0 := by
  intro env fac url polls
  refine ⟨?_, by decide, by decide, by decide, by decide⟩
  rw [List.all_eq_true]
  intro e he
  exact decide_eq_true
    (runPolls_seq_pos env polls (MediaPlaylistHandler.new fac url)
      (by simp [MediaPlaylistHandler.new]) e he)

/-- C3 counterexample: with a fresh session and a manifest whose only segment
(sequence number 5, duration 2 s) has an unresolvable URI, `handle_playlist`
reports an error, yet the session state is not as it was before the poll:
the failing segment has already been counted — `segments_total` went from 0
to 1, `last_media_sequence` from 0 to 5 and `segment_durations_total` from 0
to 2 s — contradicting the claim that on an unresolvable segment URL the
state (beyond dropped stale entries) is exactly as before. -/
theorem c3_counterexample :
    (handle_playlist envBad (MediaPlaylistHandler.new fac0 "live.m3u8") pl_bad 0).2 = false ∧
    (MediaPlaylistHandler.new fac0 "live.m3u8").segments_total = 0 ∧
    (MediaPlaylistHandler.new fac0 "live.m3u8").last_media_sequence = 0 ∧
    (MediaPlaylistHandler.new fac0 "live.m3u8").segment_durations_total = 0 ∧
    (handle_playlist envBad (MediaPlaylistHandler.new fac0 "live.m3u8")
      pl_bad 0).1.segments_total = 1 ∧
    (handle_playlist envBad (MediaPlaylistHandler.new fac0 "live.m3u8")
      pl_bad 0).1.last_media_sequence = 5 ∧
    (handle_playlist envBad (MediaPlaylistHandler.new fac0 "live.m3u8")
      pl_bad 0).1.segment_durations_total = 2000000000 := by
  decide

/-- C3 (amended): if a segment URL fails to resolve, `handle_playlist`
returns an error, appends no timer command (every appended command is a
fetch), and the resulting state is exactly the state reached by successfully
applying the manifest prefix before the failing segment — stale front
entries dropped, earlier new segments enqueued, counted and possibly
dispatched — followed by the failing segment's own watermark and totals
updates (`last_media_sequence`, `segments_total`,
`segment_durations_total`); the failing segment is not enqueued and not
fetched, and no later segment of the manifest is processed. -/
theorem c3_error_stops_at_failing_segment :
    ∀ (env : HostEnv) (h : MediaPlaylistHandler) (pl : MediaPlaylist) (f : Nat),
      (handle_playlist env h pl f).2 = false →
      (∀ a ∈ (handle_playlist env h pl f).1.action_queue,
        a ∈ h.action_queue ∨ ∃ u, a.kind = ActionKind.fetchData u) ∧
      ∃ k sg,
        pl.segments.get? k = some sg ∧
        env.resolve_url h.media_playlist_url sg.uri = none ∧
        (pollSegments env (pl.media_sequence.getD 0) (pl.segments.take k) 0
          (pollInit h pl)).2 = true ∧
        (pollSegments env (pl.media_sequence.getD 0) (pl.segments.take k) 0
          (pollInit h pl)).1.h.last_media_sequence < pl.media_sequence.getD 0 + k ∧
        (handle_playlist env h pl f).1 =
          bumpCounters (pl.media_sequence.getD 0 + k) sg.duration
            (pollSegments env (pl.media_sequence.getD 0) (pl.segments.take k) 0
              (pollInit h pl)).1.h := by
  intro env h pl f herr
  constructor
  · intro a ha
    obtain ⟨facts, tail, ha1, _, ha3, _, ha5, _, _, _⟩ := handle_playlist_actions_char env h pl f
    have htail : tail = [] := ha5 herr
    rw [ha1, htail] at ha
    rcases List.mem_append.mp ha with hm | ht
    · rcases List.mem_append.mp hm with ho | hf
      · exact Or.inl ho
      · rcases ha3 with hnil | ⟨u, k, sg, _, _, _, heq⟩
        · rw [hnil] at hf
          exact absurd hf (List.not_mem_nil a)
        · rw [heq] at hf
          have : a = ⟨h.action_factory.next_id, ActionKind.fetchData u⟩ := by simpa using hf
          exact Or.inr ⟨u, by rw [this]⟩
    · exact absurd ht (List.not_mem_nil a)
  · cases hpoll : pollSegments env (pl.media_sequence.getD 0) pl.segments 0 (pollInit h pl) with
    | mk st ok =>
      cases ok with
      | true =>
        rw [handle_playlist_ok env h pl f st hpoll] at herr
        exact absurd herr (by simp)
      | false =>
        have herr2 : (pollSegments env (pl.media_sequence.getD 0) pl.segments 0
            (pollInit h pl)).2 = false := by
          rw [hpoll]
        obtain ⟨k, sg, hget, hres, hok, hlt, heq⟩ :=
          pollSegments_err env (pl.media_sequence.getD 0) pl.segments 0 (pollInit h pl) herr2
        have hurl : (pollInit h pl).h.media_playlist_url = h.media_playlist_url := by
          simp [pollInit]
        rw [hurl] at hres
        refine ⟨k, sg, hget, hres, hok, by simpa using hlt, ?_⟩
        rw [handle_playlist_err env h pl f st hpoll]
        rw [hpoll] at heq
        have : st = ⟨bumpCounters (pl.media_sequence.getD 0 + (0 + k)) sg.duration
            (pollSegments env (pl.media_sequence.getD 0) (pl.segments.take k) 0
              (pollInit h pl)).1.h, true,
            (pollSegments env (pl.media_sequence.getD 0) (pl.segments.take k) 0
              (pollInit h pl)).1.polling_interval⟩ := heq
        rw [show st.h = bumpCounters (pl.media_sequence.getD 0 + (0 + k)) sg.duration
            (pollSegments env (pl.media_sequence.getD 0) (pl.segments.take k) 0
              (pollInit h pl)).1.h from congrArg PollState.h this]
        simp

/-- C3 witness: the amended characterization applied to the concrete failing
poll of the counterexample — the failure is at manifest index 0, the
successful prefix is empty, and the final state is the initial state plus the
failing segment's counter updates. -/
theorem c3_error_stops_at_failing_segment_witness :
    ∃ k sg,
      pl_bad.segments.get? k = some sg ∧
      envBad.resolve_url (MediaPlaylistHandler.new fac0 "live.m3u8").media_playlist_url
        sg.uri = none ∧
      (pollSegments envBad (pl_bad.media_sequence.getD 0) (pl_bad.segments.take k) 0
        (pollInit (MediaPlaylistHandler.new fac0 "live.m3u8") pl_bad)).2 = true ∧
      (pollSegments envBad (pl_bad.media_sequence.getD 0) (pl_bad.segments.take k) 0
        (pollInit (MediaPlaylistHandler.new fac0 "live.m3u8")
          pl_bad)).1.h.last_media_sequence < pl_bad.media_sequence.getD 0 + k ∧
      (handle_playlist envBad (MediaPlaylistHandler.new fac0 "live.m3u8") pl_bad 0).1 =
        bumpCounters (pl_bad.media_sequence.getD 0 + k) sg.duration
          (pollSegments envBad (pl_bad.media_sequence.getD 0) (pl_bad.segments.take k) 0
            (pollInit (MediaPlaylistHandler.new fac0 "live.m3u8") pl_bad)).1.h :=
  (c3_error_stops_at_failing_segment envBad (MediaPlaylistHandler.new fac0 "live.m3u8")
    pl_bad 0 (by decide)).2

theorem estimatorFinish_not_updated (b t d f : Nat) :
    estimatorFinish false b t d f = durDiv (estimatorFinish true b t d f) 2 := by
  simp [estimatorFinish]

/-- C6 counterexample: after a first poll that saw a single one-nanosecond
segment, a second, unchanged poll computes an interval of 1 ns before the
halving step; the armed timer is 0 ns, which is not exactly half of 1 ns
(the halving is Rust `Duration` division by two, i.e. it floors). -/
theorem c6_counterexample :
    (handle_playlist envA
      (handle_playlist envA (MediaPlaylistHandler.new fac0 "live.m3u8") pl_tiny 0).1
      pl_tiny 0).1.action_queue.getLast? = some ⟨3, ActionKind.setTimeout 0⟩ ∧
    estimatorFinish true pl_tiny.target_duration
      (handle_playlist envA (MediaPlaylistHandler.new fac0 "live.m3u8")
        pl_tiny 0).1.segments_total
      (handle_playlist envA (MediaPlaylistHandler.new fac0 "live.m3u8")
        pl_tiny 0).1.segment_durations_total 0 = 1 ∧
    2 * 0 ≠ (1 : Nat) := by
  decide

/-- C6 (amended): for every manifest poll that discovers zero new segments,
the poll succeeds and the armed refresh interval is the `Duration` halving
(integer division by two, flooring to whole nanoseconds) of the interval that
the same duration signals and fetch latency would have produced with the
halving step omitted (`estimatorFinish true …`); all other estimator steps
are unaffected. -/
theorem c6_unchanged_manifest_halves_interval :
    ∀ (env : HostEnv) (h : MediaPlaylistHandler) (pl : MediaPlaylist) (f : Nat),
      (∀ k sg, pl.segments.get? k = some sg →
        pl.media_sequence.getD 0 + k ≤ h.last_media_sequence) →
      (handle_playlist env h pl f).2 = true ∧
      (handle_playlist env h pl f).1.action_queue = h.action_queue ++
        [⟨h.action_factory.next_id, ActionKind.setTimeout
          (durDiv (estimatorFinish true pl.target_duration h.segments_total
            h.segment_durations_total f) 2)⟩] := by
  intro env h pl f hold
  have hall : ∀ k sg, pl.segments.get? k = some sg →
      pl.media_sequence.getD 0 + (0 + k) ≤ (pollInit h pl).h.last_media_sequence := by
    intro k sg hget
    have := hold k sg hget
    simpa [pollInit] using this
  have hpoll := pollSegments_all_old env (pl.media_sequence.getD 0) pl.segments 0
    (pollInit h pl) hall
  rw [handle_playlist_ok env h pl f (pollInit h pl) hpoll]
  refine ⟨rfl, ?_⟩
  have c1 := (finishPlaylist_char (pollInit h pl) f).1
  rw [c1, ← estimatorFinish_not_updated]
  simp [pollInit]

/-- C6 witness: the amended halving equation applied to the concrete
unchanged second poll of the counterexample scenario. -/
theorem c6_unchanged_manifest_halves_interval_witness :
    (handle_playlist envA
      (handle_playlist envA (MediaPlaylistHandler.new fac0 "live.m3u8") pl_tiny 0).1
      pl_tiny 0).2 = true ∧
    (handle_playlist envA
      (handle_playlist envA (MediaPlaylistHandler.new fac0 "live.m3u8") pl_tiny 0).1
      pl_tiny 0).1.action_queue
      = (handle_playlist envA (MediaPlaylistHandler.new fac0 "live.m3u8")
          pl_tiny 0).1.action_queue ++
        [⟨(handle_playlist envA (MediaPlaylistHandler.new fac0 "live.m3u8")
            pl_tiny 0).1.action_factory.next_id, ActionKind.setTimeout
          (durDiv (estimatorFinish true pl_tiny.target_duration
            (handle_playlist envA (MediaPlaylistHandler.new fac0 "live.m3u8")
              pl_tiny 0).1.segments_total
            (handle_playlist envA (MediaPlaylistHandler.new fac0 "live.m3u8")
              pl_tiny 0).1.segment_durations_total 0) 2)⟩] :=
  c6_unchanged_manifest_halves_interval envA
    (handle_playlist envA (MediaPlaylistHandler.new fac0 "live.m3u8") pl_tiny 0).1
    pl_tiny 0 (by
      intro k sg hget
      cases k with
      | zero => decide
      | succ n => simp [pl_tiny] at hget)

/-- C8 counterexample: with a measured round trip of 1 ms and one new 5 s
segment against a 6 s target, the armed interval is exactly 5 s — the
estimator subtracted `⌊1/2⌋ = 0` whole milliseconds, not exactly half of the
round-trip time (which would have produced 5 s − 0.5 ms = 4999500000 ns). -/
theorem c8_counterexample :
    (handle_playlist envA (MediaPlaylistHandler.new fac0 "live.m3u8") pl_c8 1).2 = true ∧
    (handle_playlist envA (MediaPlaylistHandler.new fac0 "live.m3u8")
      pl_c8 1).1.action_queue.getLast? = some ⟨2, ActionKind.setTimeout 5000000000⟩ ∧
    transfer_delay_of 1 = 0 ∧
    (5000000000 : Nat) ≠ 5000000000 - 500000 := by
  decide

/-- C8 (amended): on every successful poll the armed interval is computed by
`estimatorFinish`, which subtracts `⌊fetch_duration_ms / 2⌋` whole
milliseconds (half the measured round trip rounded down to a millisecond)
from the clamped interval with a floor at zero: whenever the delay is at
least the interval the result of the subtraction step is exactly zero, never
a negative or wrapped value, and otherwise it is the exact difference. -/
theorem c8_latency_floor :
    ∀ (env : HostEnv) (h : MediaPlaylistHandler) (pl : MediaPlaylist) (f : Nat),
      (handle_playlist env h pl f).2 = true →
      ∃ st : PollState,
        pollSegments env (pl.media_sequence.getD 0) pl.segments 0 (pollInit h pl)
          = (st, true) ∧
        (handle_playlist env h pl f).1.action_queue = st.h.action_queue ++
          [⟨st.h.action_factory.next_id, ActionKind.setTimeout
            (estimatorFinish st.is_updated st.polling_interval st.h.segments_total
              st.h.segment_durations_total f)⟩] ∧
        transfer_delay_of f = f / 2 * 1000000 ∧
        (∀ pi : Nat, pi ≤ transfer_delay_of f → floorSub pi (transfer_delay_of f) = 0) ∧
        (∀ pi : Nat, transfer_delay_of f < pi →
          floorSub pi (transfer_delay_of f) = pi - transfer_delay_of f) := by
  intro env h pl f hok
  cases hpoll : pollSegments env (pl.media_sequence.getD 0) pl.segments 0 (pollInit h pl) with
  | mk st ok =>
    cases ok with
    | false =>
      rw [handle_playlist_err env h pl f st hpoll] at hok
      exact absurd hok (by simp)
    | true =>
      refine ⟨st, rfl, ?_, rfl, ?_, ?_⟩
      · rw [handle_playlist_ok env h pl f st hpoll]
        exact (finishPlaylist_char st f).1
      · intro pi hle
        have : ¬ pi > transfer_delay_of f := by omega
        simp [floorSub, this]
      · intro pi hlt
        simp [floorSub, hlt]

/-- C8 witness: the floor-at-zero subtraction applied to the concrete
counterexample poll (round trip 1 ms). -/
theorem c8_latency_floor_witness :
    ∃ st : PollState,
      pollSegments envA (pl_c8.media_sequence.getD 0) pl_c8.segments 0
        (pollInit (MediaPlaylistHandler.new fac0 "live.m3u8") pl_c8) = (st, true) ∧
      (handle_playlist envA (MediaPlaylistHandler.new fac0 "live.m3u8")
        pl_c8 1).1.action_queue = st.h.action_queue ++
        [⟨st.h.action_factory.next_id, ActionKind.setTimeout
          (estimatorFinish st.is_updated st.polling_interval st.h.segments_total
            st.h.segment_durations_total 1)⟩] ∧
      transfer_delay_of 1 = 1 / 2 * 1000000 ∧
      (∀ pi : Nat, pi ≤ transfer_delay_of 1 → floorSub pi (transfer_delay_of 1) = 0) ∧
      (∀ pi : Nat, transfer_delay_of 1 < pi →
        floorSub pi (transfer_delay_of 1) = pi - transfer_delay_of 1) :=
  c8_latency_floor envA (MediaPlaylistHandler.new fac0 "live.m3u8") pl_c8 1 (by decide)

theorem segmentQueuePhase_char (h : MediaPlaylistHandler) :
    ∃ acts,
      (segmentQueuePhase h).action_queue = h.action_queue ++ acts ∧
      (segmentQueuePhase h).action_factory.next_id
        = h.action_factory.next_id + acts.length ∧
      (acts = [] ∨ ∃ u, acts = [⟨h.action_factory.next_id, ActionKind.fetchData u⟩]) ∧
      ((segmentQueuePhase h).segment_queue ≠ [] → acts ≠ []) ∧
      (segmentQueuePhase h).is_init = h.is_init ∧
      (segmentQueuePhase h).buffered_segments = h.buffered_segments ∧
      (segmentQueuePhase h).media_playlist_url = h.media_playlist_url ∧
      (segmentQueuePhase h).fetch_playlist_action_id = h.fetch_playlist_action_id ∧
      (segmentQueuePhase h).last_media_sequence = h.last_media_sequence := by
  cases hq : h.segment_queue with
  | nil =>
    have heq : segmentQueuePhase h = h := by
      simp [segmentQueuePhase, hq]
    rw [heq]
    exact ⟨[], by simp, by simp, Or.inl rfl, by rw [hq]; simp, rfl, rfl, rfl, rfl, rfl⟩
  | cons x rest =>
    cases hs : x.fetch_started with
    | true =>
      cases rest with
      | nil =>
        have heq : segmentQueuePhase h = { h with segment_queue := [] } := by
          simp [segmentQueuePhase, hq, hs]
        rw [heq]
        exact ⟨[], by simp, by simp, Or.inl rfl, by simp, rfl, rfl, rfl, rfl, rfl⟩
      | cons y t =>
        have heq : segmentQueuePhase h =
            { h with action_factory := ⟨h.action_factory.next_id + 1⟩
                     action_queue := h.action_queue
                       ++ [⟨h.action_factory.next_id, ActionKind.fetchData y.url⟩]
                     segment_queue := t } := by
          simp [segmentQueuePhase, hq, hs, ActionFactory.fetch_data]
        rw [heq]
        exact ⟨[⟨h.action_factory.next_id, ActionKind.fetchData y.url⟩], by simp, by simp,
          Or.inr ⟨y.url, rfl⟩, fun _ => by simp, rfl, rfl, rfl, rfl, rfl⟩
    | false =>
      have heq : segmentQueuePhase h =
          { h with action_factory := ⟨h.action_factory.next_id + 1⟩
                   action_queue := h.action_queue
                     ++ [⟨h.action_factory.next_id, ActionKind.fetchData x.url⟩]
                   segment_queue := rest } := by
        simp [segmentQueuePhase, hq, hs, ActionFactory.fetch_data]
      rw [heq]
      exact ⟨[⟨h.action_factory.next_id, ActionKind.fetchData x.url⟩], by simp, by simp,
        Or.inr ⟨x.url, rfl⟩, fun _ => by simp, rfl, rfl, rfl, rfl, rfl⟩

theorem assembleSegment_frame (env : HostEnv) (h : MediaPlaylistHandler) (s : List Nat) :
    (assembleSegment env h s).1.action_queue = h.action_queue ∧
    (assembleSegment env h s).1.action_factory = h.action_factory ∧
    (assembleSegment env h s).1.segment_queue = h.segment_queue ∧
    (assembleSegment env h s).1.media_playlist_url = h.media_playlist_url ∧
    (assembleSegment env h s).1.fetch_playlist_action_id = h.fetch_playlist_action_id ∧
    (assembleSegment env h s).1.last_media_sequence = h.last_media_sequence := by
  cases hf : env.to_fmp4 s with
  | none => simp [assembleSegment, hf]
  | some p =>
    obtain ⟨a, b⟩ := p
    cases hi : h.is_init with
    | true =>
      cases hw : env.write_to b with
      | none => simp [assembleSegment, hf, hi, hw]
      | some m => simp [assembleSegment, hf, hi, hw]
    | false =>
      cases hw : env.write_to a with
      | none => simp [assembleSegment, hf, hi, hw]
      | some ini =>
        cases hw2 : env.write_to b with
        | none => simp [assembleSegment, hf, hi, hw, hw2]
        | some m => simp [assembleSegment, hf, hi, hw, hw2]

theorem assembleSegment_init_true (env : HostEnv) (h : MediaPlaylistHandler) (s : List Nat)
    (hinit : h.is_init = true) :
    (assembleSegment env h s).1.is_init = true ∧
    ((assembleSegment env h s).1.buffered_segments = h.buffered_segments ∨
      ∃ a b m, env.to_fmp4 s = some (a, b) ∧ env.write_to b = some m ∧
        (assembleSegment env h s).1.buffered_segments = h.buffered_segments ++ [m]) := by
  cases hf : env.to_fmp4 s with
  | none => exact ⟨by simp [assembleSegment, hf, hinit], Or.inl (by simp [assembleSegment, hf])⟩
  | some p =>
    obtain ⟨a, b⟩ := p
    cases hw : env.write_to b with
    | none =>
      exact ⟨by simp [assembleSegment, hf, hinit, hw],
        Or.inl (by simp [assembleSegment, hf, hinit, hw])⟩
    | some m =>
      exact ⟨by simp [assembleSegment, hf, hinit, hw],
        Or.inr ⟨a, b, m, rfl, hw, by simp [assembleSegment, hf, hinit, hw]⟩⟩

theorem assembleSegment_init_false (env : HostEnv) (h : MediaPlaylistHandler) (s : List Nat)
    (hinit : h.is_init = false) :
    ((assembleSegment env h s).1.is_init = false ∧
      (assembleSegment env h s).1.buffered_segments = h.buffered_segments) ∨
    ∃ a b ini, env.to_fmp4 s = some (a, b) ∧ env.write_to a = some ini ∧
      (assembleSegment env h s).1.is_init = true ∧
      ((assembleSegment env h s).1.buffered_segments = h.buffered_segments ++ [ini] ∨
        ∃ m, env.write_to b = some m ∧
          (assembleSegment env h s).1.buffered_segments
            = h.buffered_segments ++ [ini, m]) := by
  cases hf : env.to_fmp4 s with
  | none =>
    exact Or.inl ⟨by simp [assembleSegment, hf, hinit], by simp [assembleSegment, hf]⟩
  | some p =>
    obtain ⟨a, b⟩ := p
    cases hw : env.write_to a with
    | none =>
      exact Or.inl ⟨by simp [assembleSegment, hf, hinit, hw],
        by simp [assembleSegment, hf, hinit, hw]⟩
    | some ini =>
      cases hw2 : env.write_to b with
      | none =>
        exact Or.inr ⟨a, b, ini, rfl, hw, by simp [assembleSegment, hf, hinit, hw, hw2],
          Or.inl (by simp [assembleSegment, hf, hinit, hw, hw2])⟩
      | some m =>
        exact Or.inr ⟨a, b, ini, rfl, hw, by simp [assembleSegment, hf, hinit, hw, hw2],
          Or.inr ⟨m, hw2, by simp [assembleSegment, hf, hinit, hw, hw2]⟩⟩

theorem isMediaPayload_weaken (env : HostEnv) (s : List Nat) (inputs : List (List Nat))
    (q : List Nat) (hm : IsMediaPayload env inputs q) : IsMediaPayload env (s :: inputs) q := by
  obtain ⟨t, a, b, ht, hf, hw⟩ := hm
  exact ⟨t, a, b, List.mem_cons_of_mem s ht, hf, hw⟩

theorem runSegments_media_only (env : HostEnv) :
    ∀ (inputs : List (List Nat)) (h : MediaPlaylistHandler),
      h.is_init = true →
      ∃ ms,
        (runSegments env h inputs).buffered_segments = h.buffered_segments ++ ms ∧
        (∀ q ∈ ms, IsMediaPayload env inputs q) ∧
        (runSegments env h inputs).is_init = true := by
  intro inputs
  induction inputs with
  | nil =>
    intro h hinit
    exact ⟨[], by simp [runSegments], by simp, hinit⟩
  | cons s rest ih =>
    intro h hinit
    obtain ⟨_, _, _, _, _, qinit, qbuf, _, _, _⟩ := segmentQueuePhase_char h
    have hinit2 : (segmentQueuePhase h).is_init = true := by rw [qinit, hinit]
    obtain ⟨ha, hb⟩ := assembleSegment_init_true env (segmentQueuePhase h) s hinit2
    obtain ⟨ms, hm1, hm2, hm3⟩ :=
      ih (assembleSegment env (segmentQueuePhase h) s).1 ha
    rcases hb with hsame | ⟨a, b, m, hf, hw, happ⟩
    · refine ⟨ms, ?_, ?_, hm3⟩
      · rw [show runSegments env h (s :: rest)
            = runSegments env (handle_segment env h s).1 rest from rfl]
        rw [show handle_segment env h s = assembleSegment env (segmentQueuePhase h) s from rfl]
        rw [hm1, hsame, qbuf]
      · intro q hq
        exact isMediaPayload_weaken env s rest q (hm2 q hq)
    · refine ⟨m :: ms, ?_, ?_, hm3⟩
      · rw [show runSegments env h (s :: rest)
            = runSegments env (handle_segment env h s).1 rest from rfl]
        rw [show handle_segment env h s = assembleSegment env (segmentQueuePhase h) s from rfl]
        rw [hm1, happ, qbuf]
        simp
      · intro q hq
        rcases List.mem_cons.mp hq with hq0 | hq1
        · subst hq0
          exact ⟨s, a, b, List.mem_cons_self s rest, hf, hw⟩
        · exact isMediaPayload_weaken env s rest q (hm2 q hq1)

theorem runSegments_fresh (env : HostEnv) :
    ∀ (inputs : List (List Nat)) (h : MediaPlaylistHandler),
      h.is_init = false → h.buffered_segments = [] →
      ((runSegments env h inputs).is_init = false ∧
        (runSegments env h inputs).buffered_segments = []) ∨
      ∃ ini ms,
        (runSegments env h inputs).buffered_segments = ini :: ms ∧
        IsInitPayload env inputs ini ∧
        ∀ q ∈ ms, IsMediaPayload env inputs q := by
  intro inputs
  induction inputs with
  | nil =>
    intro h hinit hbuf
    exact Or.inl ⟨hinit, hbuf⟩
  | cons s rest ih =>
    intro h hinit hbuf
    obtain ⟨_, _, _, _, _, qinit, qbuf, _, _, _⟩ := segmentQueuePhase_char h
    have hinit2 : (segmentQueuePhase h).is_init = false := by rw [qinit, hinit]
    have hbuf2 : (segmentQueuePhase h).buffered_segments = [] := by rw [qbuf, hbuf]
    have hstep : runSegments env h (s :: rest)
        = runSegments env (assembleSegment env (segmentQueuePhase h) s).1 rest := rfl
    rcases assembleSegment_init_false env (segmentQueuePhase h) s hinit2 with
      ⟨ha, hb⟩ | ⟨a, b, ini, hf, hw, ha, hb⟩
    · rcases ih (assembleSegment env (segmentQueuePhase h) s).1 ha (by rw [hb, hbuf2]) with
        ⟨h1, h2⟩ | ⟨ini, ms, h1, h2, h3⟩
      · rw [hstep]
        exact Or.inl ⟨h1, h2⟩
      · rw [hstep]
        refine Or.inr ⟨ini, ms, h1, ?_, ?_⟩
        · obtain ⟨t, aa, bb, ht, hff, hww⟩ := h2
          exact ⟨t, aa, bb, List.mem_cons_of_mem s ht, hff, hww⟩
        · intro q hq
          exact isMediaPayload_weaken env s rest q (h3 q hq)
    · obtain ⟨ms, hm1, hm2, _⟩ :=
        runSegments_media_only env rest (assembleSegment env (segmentQueuePhase h) s).1 ha
      rw [hstep]
      rcases hb with hb1 | ⟨m, hwm, hb2⟩
      · refine Or.inr ⟨ini, ms, ?_, ?_, ?_⟩
        · rw [hm1, hb1, hbuf2]
          simp
        · exact ⟨s, a, b, List.mem_cons_self s rest, hf, hw⟩
        · intro q hq
          exact isMediaPayload_weaken env s rest q (hm2 q hq)
      · refine Or.inr ⟨ini, m :: ms, ?_, ?_, ?_⟩
        · rw [hm1, hb2, hbuf2]
          simp
        · exact ⟨s, a, b, List.mem_cons_self s rest, hf, hw⟩
        · intro q hq
          rcases List.mem_cons.mp hq with hq0 | hq1
          · subst hq0
            exact ⟨s, a, b, List.mem_cons_self s rest, hf, hwm⟩
          · exact isMediaPayload_weaken env s rest q (hm2 q hq1)

theorem handle_segment_char (env : HostEnv) (h : MediaPlaylistHandler) (s : List Nat) :
    ∃ acts,
      (handle_segment env h s).1.action_queue = h.action_queue ++ acts ∧
      (handle_segment env h s).1.action_factory.next_id
        = h.action_factory.next_id + acts.length ∧
      (acts = [] ∨ ∃ u, acts = [⟨h.action_factory.next_id, ActionKind.fetchData u⟩]) ∧
      ((handle_segment env h s).1.segment_queue ≠ [] → acts ≠ []) ∧
      (handle_segment env h s).1.fetch_playlist_action_id = h.fetch_playlist_action_id := by
  obtain ⟨acts, p1, p2, p3, p4, _, _, _, p8, _⟩ := segmentQueuePhase_char h
  obtain ⟨f1, f2, f3, _, f5, _⟩ := assembleSegment_frame env (segmentQueuePhase h) s
  have hdef : (handle_segment env h s).1 = (assembleSegment env (segmentQueuePhase h) s).1 :=
    rfl
  refine ⟨acts, ?_, ?_, p3, ?_, ?_⟩
  · rw [hdef, f1, p1]
  · rw [hdef, f2, p2]
  · intro hne
    rw [hdef, f3] at hne
    exact p4 hne
  · rw [hdef, f5, p8]

theorem countedSegFetch_comp_eq_of_ne (mids comp : List Nat) (i : Nat) (a : Action)
    (hne : a.id ≠ i) :
    countedSegFetch mids (i :: comp) a = countedSegFetch mids comp a := by
  unfold countedSegFetch
  cases a.kind with
  | fetchData u => simp [List.contains_cons, hne]
  | setTimeout dur => rfl

theorem countedSegFetch_comp_head (mids comp : List Nat) (i : Nat) (a : Action)
    (hid : a.id = i) :
    countedSegFetch mids (i :: comp) a = false := by
  unfold countedSegFetch
  cases a.kind with
  | fetchData u => simp [List.contains_cons, hid]
  | setTimeout dur => rfl

theorem countedSegFetch_mids_eq_of_ne (mids comp : List Nat) (i : Nat) (a : Action)
    (hne : a.id ≠ i) :
    countedSegFetch (i :: mids) comp a = countedSegFetch mids comp a := by
  unfold countedSegFetch
  cases a.kind with
  | fetchData u => simp [List.contains_cons, hne]
  | setTimeout dur => rfl

theorem countedSegFetch_mids_head (mids comp : List Nat) (i : Nat) (a : Action)
    (hid : a.id = i) :
    countedSegFetch (i :: mids) comp a = false := by
  unfold countedSegFetch
  cases a.kind with
  | fetchData u => simp [List.contains_cons, hid]
  | setTimeout dur => rfl

theorem countedSegFetch_of_mem_mids (mids comp : List Nat) (a : Action)
    (hmem : a.id ∈ mids) :
    countedSegFetch mids comp a = false := by
  unfold countedSegFetch
  cases a.kind with
  | fetchData u =>
    simp
    intro hn
    exact absurd hmem hn
  | setTimeout dur => rfl

theorem contains_eq_false_of_forall_lt (l : List Nat) (n : Nat)
    (hall : ∀ m ∈ l, m < n) : l.contains n = false := by
  have hn : n ∉ l := fun hmem => lt_irrefl n (hall n hmem)
  simpa using hn

theorem countedSegFetch_fresh (mids comp : List Nat) (n : Nat) (u : String)
    (h1 : mids.contains n = false) (h2 : comp.contains n = false) :
    countedSegFetch mids comp ⟨n, ActionKind.fetchData u⟩ = true := by
  unfold countedSegFetch
  simp
  exact ⟨by simpa using h1, by simpa using h2⟩

theorem countedSegFetch_setTimeout (mids comp : List Nat) (n dur : Nat) :
    countedSegFetch mids comp ⟨n, ActionKind.setTimeout dur⟩ = false := rfl

theorem segCount_mark_uncounted (mids comp : List Nat) (i : Nat) (l : List Action)
    (hnone : ∀ a ∈ l, a.id = i → countedSegFetch mids comp a = false) :
    (l.filter (countedSegFetch mids (i :: comp))).length
      = (l.filter (countedSegFetch mids comp)).length := by
  have hcong : ∀ a ∈ l, countedSegFetch mids (i :: comp) a = countedSegFetch mids comp a := by
    intro a ha
    by_cases hid : a.id = i
    · rw [countedSegFetch_comp_head mids comp i a hid, hnone a ha hid]
    · exact countedSegFetch_comp_eq_of_ne mids comp i a hid
  rw [List.filter_congr hcong]

theorem segCount_mark_counted (mids comp : List Nat) (i : Nat) :
    ∀ (l : List Action), (l.map (fun a => a.id)).Nodup →
      ∀ a0 ∈ l, a0.id = i → countedSegFetch mids comp a0 = true →
      (l.filter (countedSegFetch mids (i :: comp))).length + 1
        = (l.filter (countedSegFetch mids comp)).length := by
  intro l
  induction l with
  | nil =>
    intro _ a0 h0
    exact absurd h0 (List.not_mem_nil a0)
  | cons b t ih =>
    intro hnd a0 hmem hid hcnt
    have hnd' : (b.id :: t.map (fun a => a.id)).Nodup := by simpa using hnd
    have hnd2 := List.nodup_cons.mp hnd'
    rcases List.mem_cons.mp hmem with hb | ht
    · subst hb
      have hagree : ∀ a ∈ t, countedSegFetch mids (i :: comp) a
          = countedSegFetch mids comp a := by
        intro a ha
        have hane : a.id ≠ i := by
          intro hai
          exact hnd2.1 (by
            rw [hid, ← hai]
            exact List.mem_map.mpr ⟨a, ha, rfl⟩)
        exact countedSegFetch_comp_eq_of_ne mids comp i a hane
      rw [List.filter_cons, List.filter_cons, countedSegFetch_comp_head mids comp i a0 hid,
        hcnt, List.filter_congr hagree]
      simp
    · have hbne : b.id ≠ i := by
        intro hbi
        refine hnd2.1 ?_
        rw [hbi, ← hid]
        exact List.mem_map.mpr ⟨a0, ht, rfl⟩
      rw [List.filter_cons, List.filter_cons,
        countedSegFetch_comp_eq_of_ne mids comp i b hbne]
      have hrec := ih hnd2.2 a0 ht hid hcnt
      cases hc : countedSegFetch mids comp b with
      | false =>
        simpa [hc] using hrec
      | true =>
        simp [hc]
        omega

theorem handle_timeout_eq (h : MediaPlaylistHandler) (id : Nat) :
    (h.handle_timeout id).1 =
      { h with action_factory := ⟨h.action_factory.next_id + 1⟩
               action_queue := h.action_queue
                 ++ [⟨h.action_factory.next_id, ActionKind.fetchData h.media_playlist_url⟩]
               fetch_playlist_action_id := h.action_factory.next_id } := by
  simp [MediaPlaylistHandler.handle_timeout, ActionFactory.fetch_data]

theorem driverInv_timer (env : HostEnv) (d : Driver) (id : Nat) (hinv : DriverInv d) :
    DriverInv (stepEv env d (HostEv.timer id)) := by
  obtain ⟨h1, h2, h3, h4, h5, h6, h7⟩ := hinv
  have hstep : stepEv env d (HostEv.timer id) =
      { handler := (d.handler.handle_timeout id).1
        manifest_ids := (d.handler.handle_timeout id).1.fetch_playlist_action_id
          :: d.manifest_ids
        completed := d.completed } := rfl
  rw [hstep, handle_timeout_eq]
  set n := d.handler.action_factory.next_id with hn
  have hnew : countedSegFetch (n :: d.manifest_ids) d.completed
      ⟨n, ActionKind.fetchData d.handler.media_playlist_url⟩ = false :=
    countedSegFetch_mids_head _ _ _ _ rfl
  have hold : ∀ a ∈ d.handler.action_queue,
      countedSegFetch (n :: d.manifest_ids) d.completed a
        = countedSegFetch d.manifest_ids d.completed a := by
    intro a ha
    exact countedSegFetch_mids_eq_of_ne _ _ _ _ (Nat.ne_of_lt (h1 a ha))
  refine ⟨?_, ?_, ?_, ?_, ?_, ?_, ?_⟩
  · intro a ha
    simp only [List.mem_append] at ha
    rcases ha with ha | ha
    · exact Nat.lt_succ_of_lt (h1 a ha)
    · simp only [List.mem_singleton] at ha
      rw [ha]
      exact Nat.lt_succ_self n
  · intro m hm
    simp only [List.mem_cons] at hm
    rcases hm with hm | hm
    · rw [hm]
      exact Nat.lt_succ_self n
    · exact Nat.lt_succ_of_lt (h2 m hm)
  · intro c hc
    exact Nat.lt_succ_of_lt (h3 c hc)
  · exact List.mem_cons_self _ _
  · simp only [List.map_append, List.map_cons, List.map_nil]
    refine List.Nodup.append h5 (List.nodup_singleton n) ?_
    intro x hx hxn
    simp only [List.mem_singleton] at hxn
    obtain ⟨a, ha, hax⟩ := List.mem_map.mp hx
    rw [hxn] at hax
    exact absurd (hax ▸ h1 a ha) (lt_irrefl n)
  · have hgoal := h6
    unfold segFetchCount at hgoal ⊢
    simp only [List.filter_append, List.length_append]
    rw [List.filter_congr hold]
    simpa [hnew] using hgoal
  · intro hq
    have hq2 : d.handler.segment_queue ≠ [] := by simpa using hq
    have hgoal := h7 hq2
    unfold segFetchCount at hgoal ⊢
    simp only [List.filter_append, List.length_append]
    rw [List.filter_congr hold]
    simpa [hnew] using hgoal

theorem evOk_data_elim (env : HostEnv) (d : Driver) (id : Nat) (payload : List Nat)
    (f : Nat) (hok : evOk env d (HostEv.data id payload f) = true) :
    (∃ a, a ∈ d.handler.action_queue ∧ a.id = id ∧ a.kind.isFetchData = true) ∧
    d.completed.contains id = false ∧
    (d.manifest_ids.contains id = false ∨ id = d.handler.fetch_playlist_action_id) ∧
    (id = d.handler.fetch_playlist_action_id →
      ∀ pl, env.parse_m3u8 payload = some pl →
        segFetchCount d = 0 ∨
        dropStaleFront (pl.media_sequence.getD 0) d.handler.segment_queue ≠ []) := by
  unfold evOk evLegal at hok
  rw [Bool.and_eq_true, Bool.and_eq_true, Bool.and_eq_true] at hok
  obtain ⟨⟨⟨hany, hcomp⟩, helig⟩, hguard⟩ := hok
  refine ⟨?_, ?_, ?_, ?_⟩
  · obtain ⟨a, ha, hcond⟩ := List.any_eq_true.mp hany
    rw [Bool.and_eq_true] at hcond
    exact ⟨a, ha, by simpa using hcond.1, hcond.2⟩
  · simpa using hcomp
  · rw [Bool.or_eq_true] at helig
    rcases helig with hm | hfp
    · exact Or.inl (by simpa using hm)
    · exact Or.inr (by simpa using hfp)
  · intro hfp pl hparse
    rw [if_pos (by simpa using hfp), hparse] at hguard
    rw [Bool.or_eq_true] at hguard
    rcases hguard with hz | hne
    · exact Or.inl (by simpa using hz)
    · refine Or.inr ?_
      have := by simpa using hne
      intro heq
      rw [heq] at this
      simp at this

theorem driverInv_data_segment (env : HostEnv) (d : Driver) (id : Nat) (payload : List Nat)
    (f : Nat) (hinv : DriverInv d) (hok : evOk env d (HostEv.data id payload f) = true)
    (hfp : id ≠ d.handler.fetch_playlist_action_id) :
    DriverInv (stepEv env d (HostEv.data id payload f)) := by
  obtain ⟨⟨a0, ha0, ha0id, ha0fd⟩, hcomp, helig, _⟩ := evOk_data_elim env d id payload f hok
  obtain ⟨h1, h2, h3, h4, h5, h6, h7⟩ := hinv
  have hmids : d.manifest_ids.contains id = false := by
    rcases helig with hm | hm
    · exact hm
    · exact absurd hm hfp
  have hidlt : id < d.handler.action_factory.next_id := ha0id ▸ h1 a0 ha0
  obtain ⟨u0, hu0⟩ : ∃ u, a0.kind = ActionKind.fetchData u := by
    cases hk : a0.kind with
    | fetchData u => exact ⟨u, rfl⟩
    | setTimeout dur =>
      rw [hk] at ha0fd
      exact absurd ha0fd (by simp [ActionKind.isFetchData])
  have ha0eq : a0 = ⟨a0.id, ActionKind.fetchData u0⟩ := by
    cases a0 with
    | mk i k =>
      simp only at hu0
      rw [hu0]
  have hcounted : countedSegFetch d.manifest_ids d.completed a0 = true := by
    rw [ha0eq]
    exact countedSegFetch_fresh d.manifest_ids d.completed a0.id u0
      (by rw [ha0id]; exact hmids) (by rw [ha0id]; exact hcomp)
  have hcnt1 : segFetchCount d = 1 := by
    have hge : 0 < segFetchCount d := by
      unfold segFetchCount
      have hmem : a0 ∈ List.filter (countedSegFetch d.manifest_ids d.completed)
          d.handler.action_queue := List.mem_filter.mpr ⟨ha0, hcounted⟩
      exact List.length_pos.mpr (List.ne_nil_of_mem hmem)
    omega
  have hstep : stepEv env d (HostEv.data id payload f) =
      { handler := (handle_segment env d.handler payload).1
        manifest_ids := d.manifest_ids
        completed := id :: d.completed } := by
    simp [stepEv, handle_data, hfp]
  obtain ⟨acts, hc1, hc2, hc3, hc4, hc5⟩ := handle_segment_char env d.handler payload
  have hmarked : (List.filter (countedSegFetch d.manifest_ids (id :: d.completed))
      d.handler.action_queue).length = 0 := by
    have hm := segCount_mark_counted d.manifest_ids d.completed id
      d.handler.action_queue h5 a0 ha0 ha0id hcounted
    unfold segFetchCount at hcnt1
    omega
  have hactcnt : (List.filter (countedSegFetch d.manifest_ids (id :: d.completed))
      acts).length = acts.length := by
    rcases hc3 with hnil | ⟨u, hu⟩
    · rw [hnil]
      rfl
    · rw [hu]
      have hfresh : countedSegFetch d.manifest_ids (id :: d.completed)
          ⟨d.handler.action_factory.next_id, ActionKind.fetchData u⟩ = true := by
        refine countedSegFetch_fresh _ _ _ _ ?_ ?_
        · exact contains_eq_false_of_forall_lt _ _ h2
        · refine contains_eq_false_of_forall_lt _ _ ?_
          intro m hm
          rcases List.mem_cons.mp hm with hm | hm
          · rw [hm]
            exact hidlt
          · exact h3 m hm
      simp [hfresh]
  have hcount : segFetchCount (stepEv env d (HostEv.data id payload f)) = acts.length := by
    rw [hstep]
    unfold segFetchCount
    simp only [hc1, List.filter_append, List.length_append]
    rw [hmarked, hactcnt]
    omega
  have hlen : acts.length ≤ 1 := by
    rcases hc3 with hnil | ⟨u, hu⟩
    · rw [hnil]; exact Nat.zero_le 1
    · rw [hu]; exact le_refl 1
  rw [hstep] at hcount
  rw [hstep]
  refine ⟨?_, ?_, ?_, ?_, ?_, ?_, ?_⟩
  · intro a ha
    simp only at ha ⊢
    rw [hc1] at ha
    rw [hc2]
    rcases List.mem_append.mp ha with ha | ha
    · have := h1 a ha
      omega
    · rcases hc3 with hnil | ⟨u, hu⟩
      · rw [hnil] at ha
        exact absurd ha (List.not_mem_nil a)
      · rw [hu] at ha
        simp only [List.mem_singleton] at ha
        rw [ha, hu]
        simp
  · intro m hm
    simp only at hm
    rw [hc2]
    have := h2 m hm
    omega
  · intro c hc
    simp only at hc
    rw [hc2]
    rcases List.mem_cons.mp hc with hc | hc
    · rw [hc]
      omega
    · have := h3 c hc
      omega
  · simp only [hc5]
    exact h4
  · simp only
    rw [hc1, List.map_append]
    rcases hc3 with hnil | ⟨u, hu⟩
    · rw [hnil]
      simpa using h5
    · rw [hu]
      simp only [List.map_cons, List.map_nil]
      refine List.Nodup.append h5 (List.nodup_singleton _) ?_
      intro x hx hxn
      simp only [List.mem_singleton] at hxn
      obtain ⟨a, ha, hax⟩ := List.mem_map.mp hx
      rw [hxn] at hax
      exact absurd (hax ▸ h1 a ha) (lt_irrefl _)
  · rw [hcount]
    exact hlen
  · intro hq
    rw [hcount]
    simp only at hq
    have hacts : acts ≠ [] := hc4 hq
    rcases hc3 with hnil | ⟨u, hu⟩
    · exact absurd hnil hacts
    · rw [hu]
      rfl

theorem driverInv_data_manifest (env : HostEnv) (d : Driver) (id : Nat) (payload : List Nat)
    (f : Nat) (hinv : DriverInv d) (hok : evOk env d (HostEv.data id payload f) = true)
    (hfp : id = d.handler.fetch_playlist_action_id) :
    DriverInv (stepEv env d (HostEv.data id payload f)) := by
  obtain ⟨⟨a0, ha0, ha0id, _⟩, hcomp, _, hguard⟩ := evOk_data_elim env d id payload f hok
  obtain ⟨h1, h2, h3, h4, h5, h6, h7⟩ := hinv
  have hidlt : id < d.handler.action_factory.next_id := ha0id ▸ h1 a0 ha0
  have hnone : ∀ a ∈ d.handler.action_queue, a.id = id →
      countedSegFetch d.manifest_ids d.completed a = false := by
    intro a ha haid
    apply countedSegFetch_of_mem_mids
    rw [haid, hfp]
    exact h4
  have hmarked : (List.filter (countedSegFetch d.manifest_ids (id :: d.completed))
      d.handler.action_queue).length = segFetchCount d :=
    segCount_mark_uncounted d.manifest_ids d.completed id d.handler.action_queue hnone
  cases hparse : env.parse_m3u8 payload with
  | none =>
    have hstep : stepEv env d (HostEv.data id payload f) =
        { handler := d.handler
          manifest_ids := d.manifest_ids
          completed := id :: d.completed } := by
      simp [stepEv, handle_data, hfp, hparse]
    rw [hstep]
    refine ⟨h1, h2, ?_, h4, h5, ?_, ?_⟩
    · intro c hc
      rcases List.mem_cons.mp hc with hc | hc
      · rw [hc]
        exact hidlt
      · exact h3 c hc
    · unfold segFetchCount
      simp only
      rw [hmarked]
      exact h6
    · intro hq
      unfold segFetchCount
      simp only
      rw [hmarked]
      exact h7 hq
  | some pl =>
    have hstep : stepEv env d (HostEv.data id payload f) =
        { handler := (handle_playlist env d.handler pl f).1
          manifest_ids := d.manifest_ids
          completed := id :: d.completed } := by
      simp [stepEv, handle_data, hfp, hparse]
    have hg := hguard hfp pl hparse
    obtain ⟨facts, tail, ha1, ha2, ha3, ha4, _, ha6, ha7, ha8⟩ :=
      handle_playlist_actions_char env d.handler pl f
    obtain ⟨_, hfr2, _, _⟩ := handle_playlist_frame env d.handler pl f
    have hfactcnt : (List.filter (countedSegFetch d.manifest_ids (id :: d.completed))
        facts).length = facts.length := by
      rcases ha3 with hnil | ⟨u, k, sg, _, _, _, hu⟩
      · rw [hnil]
        rfl
      · rw [hu]
        have hfresh : countedSegFetch d.manifest_ids (id :: d.completed)
            ⟨d.handler.action_factory.next_id, ActionKind.fetchData u⟩ = true := by
          refine countedSegFetch_fresh _ _ _ _ ?_ ?_
          · exact contains_eq_false_of_forall_lt _ _ h2
          · refine contains_eq_false_of_forall_lt _ _ ?_
            intro m hm
            rcases List.mem_cons.mp hm with hm | hm
            · rw [hm]
              exact hidlt
            · exact h3 m hm
        simp [hfresh]
    have htailcnt : (List.filter (countedSegFetch d.manifest_ids (id :: d.completed))
        tail).length = 0 := by
      rcases ha4 with hnil | ⟨dur, hdur⟩
      · rw [hnil]
        rfl
      · rw [hdur]
        simp [countedSegFetch_setTimeout]
    have hcount : segFetchCount
        { handler := (handle_playlist env d.handler pl f).1
          manifest_ids := d.manifest_ids
          completed := id :: d.completed } = segFetchCount d + facts.length := by
      show (List.filter (countedSegFetch d.manifest_ids (id :: d.completed))
          (handle_playlist env d.handler pl f).1.action_queue).length
          = segFetchCount d + facts.length
      rw [ha1, List.filter_append, List.filter_append, List.length_append,
        List.length_append, hmarked, hfactcnt, htailcnt]
      omega
    have hfactlen : facts.length ≤ 1 := by
      rcases ha3 with hnil | ⟨u, k, sg, _, _, _, hu⟩
      · rw [hnil]; exact Nat.zero_le 1
      · rw [hu]; exact le_refl 1
    rw [hstep]
    refine ⟨?_, ?_, ?_, ?_, ?_, ?_, ?_⟩
    · intro a ha
      simp only at ha ⊢
      rw [ha1] at ha
      rw [ha2]
      rcases List.mem_append.mp ha with ha | htl
      · rcases List.mem_append.mp ha with ha | hfa
        · have := h1 a ha
          omega
        · rcases ha3 with hnil | ⟨u, k, sg, _, _, _, hu⟩
          · rw [hnil] at hfa
            exact absurd hfa (List.not_mem_nil a)
          · rw [hu] at hfa
            simp only [List.mem_singleton] at hfa
            have haid2 : a.id = d.handler.action_factory.next_id := by rw [hfa]
            rw [haid2, hu]
            simp only [List.length_cons, List.length_nil]
            omega
      · rcases ha4 with hnil | ⟨dur, hdur⟩
        · rw [hnil] at htl
          exact absurd htl (List.not_mem_nil a)
        · rw [hdur] at htl
          simp only [List.mem_singleton] at htl
          have haid2 : a.id = d.handler.action_factory.next_id + facts.length := by rw [htl]
          rw [haid2, hdur]
          simp only [List.length_cons, List.length_nil]
          omega
    · intro m hm
      simp only at hm
      rw [ha2]
      have := h2 m hm
      omega
    · intro c hc
      simp only at hc
      rw [ha2]
      rcases List.mem_cons.mp hc with hc | hc
      · rw [hc]
        omega
      · have := h3 c hc
        omega
    · simp only [hfr2]
      exact h4
    · simp only
      rw [ha1, List.map_append, List.map_append]
      have hdisj1 : ∀ x ∈ List.map (fun a => a.id) d.handler.action_queue,
          d.handler.action_factory.next_id ≤ x → False := by
        intro x hx hle
        obtain ⟨a, ha, hax⟩ := List.mem_map.mp hx
        rw [← hax] at hle
        exact absurd (h1 a ha) (Nat.not_lt_of_le hle)
      rcases ha3 with hfnil | ⟨u, k, sg, _, _, _, hfu⟩ <;>
        rcases ha4 with htnil | ⟨dur, htdur⟩
      · rw [hfnil, htnil]
        simpa using h5
      · rw [hfnil, htdur]
        simp only [List.map_cons, List.map_nil, List.map_nil]
        refine List.Nodup.append (by simpa using h5) (List.nodup_singleton _) ?_
        intro x hx hxn
        simp only [List.mem_singleton] at hxn
        simp only [List.append_nil] at hx
        exact hdisj1 x hx (by omega)
      · rw [hfu, htnil]
        simp only [List.map_cons, List.map_nil]
        rw [List.append_nil]
        refine List.Nodup.append h5 (List.nodup_singleton _) ?_
        intro x hx hxn
        simp only [List.mem_singleton] at hxn
        exact hdisj1 x hx (by omega)
      · rw [hfu, htdur]
        simp only [List.map_cons, List.map_nil]
        refine List.Nodup.append ?_ (List.nodup_singleton _) ?_
        · refine List.Nodup.append h5 (List.nodup_singleton _) ?_
          intro x hx hxn
          simp only [List.mem_singleton] at hxn
          exact hdisj1 x hx (by omega)
        · intro x hx hxn
          simp only [List.mem_singleton] at hxn
          rcases List.mem_append.mp hx with hx | hx
          · rw [hfu] at hxn
            simp only [List.length_cons, List.length_nil] at hxn
            exact hdisj1 x hx (by omega)
          · simp only [List.mem_singleton] at hx
            rw [hfu] at hxn
            simp only [List.length_cons, List.length_nil] at hxn
            omega
    · rw [hcount]
      by_cases hds : dropStaleFront (pl.media_sequence.getD 0) d.handler.segment_queue = []
      · have hz : segFetchCount d = 0 := by
          rcases hg with hz | hne
          · exact hz
          · exact absurd hds hne
        omega
      · have hfnil : facts = [] := ha6 hds
        rw [hfnil]
        simpa using h6
    · intro hq
      simp only at hq
      rw [hcount]
      by_cases hds : dropStaleFront (pl.media_sequence.getD 0) d.handler.segment_queue = []
      · have hz : segFetchCount d = 0 := by
          rcases hg with hz | hne
          · exact hz
          · exact absurd hds hne
        have hfne : facts ≠ [] := ha8 hds hq
        rcases ha3 with hfnil | ⟨u, k, sg, _, _, _, hfu⟩
        · exact absurd hfnil hfne
        · rw [hfu]
          simp [hz]
      · have hfnil : facts = [] := ha6 hds
        have hqpre : d.handler.segment_queue ≠ [] := by
          intro hqe
          rw [hqe] at hds
          exact hds rfl
        rw [hfnil]
        simpa using h7 hqpre

theorem driverInv_step (env : HostEnv) (d : Driver) (ev : HostEv) (hinv : DriverInv d)
    (hok : evOk env d ev = true) : DriverInv (stepEv env d ev) := by
  cases ev with
  | data id payload f =>
    by_cases hfp : id = d.handler.fetch_playlist_action_id
    · exact driverInv_data_manifest env d id payload f hinv hok hfp
    · exact driverInv_data_segment env d id payload f hinv hok hfp
  | timer id => exact driverInv_timer env d id hinv

theorem driverInv_init (fac : ActionFactory) (url : String) :
    DriverInv (Driver.init fac url) := by
  refine ⟨?_, ?_, ?_, ?_, ?_, ?_, ?_⟩
  · intro a ha
    simp only [Driver.init, MediaPlaylistHandler.new, ActionFactory.fetch_data,
      List.mem_singleton] at ha ⊢
    rw [ha]
    exact Nat.lt_succ_self _
  · intro m hm
    simp only [Driver.init, MediaPlaylistHandler.new, ActionFactory.fetch_data,
      List.mem_singleton] at hm ⊢
    rw [hm]
    exact Nat.lt_succ_self _
  · intro c hc
    simp [Driver.init] at hc
  · simp [Driver.init]
  · simp [Driver.init, MediaPlaylistHandler.new]
  · unfold segFetchCount Driver.init MediaPlaylistHandler.new
    simp only
    have : countedSegFetch [fac.next_id] []
        ⟨fac.next_id, ActionKind.fetchData url⟩ = false := by
      apply countedSegFetch_of_mem_mids
      simp
    simp [ActionFactory.fetch_data, this]
  · intro hq
    simp [Driver.init, MediaPlaylistHandler.new] at hq

theorem trace_inv (env : HostEnv) :
    ∀ (evs : List HostEv) (d : Driver), DriverInv d → trace_ok env d evs = true →
      DriverInv (runEvents env d evs) := by
  intro evs
  induction evs with
  | nil => intro d hinv _; exact hinv
  | cons ev rest ih =>
    intro d hinv htr
    unfold trace_ok at htr
    rw [Bool.and_eq_true] at htr
    exact ih (stepEv env d ev) (driverInv_step env d ev hinv htr.1) htr.2

/-- C1 counterexample: a host-legal interleaving (every completion answers a
command that was actually issued, exactly once) after which two segment-data
`FetchData` commands are pending or in flight while the segment queue is
nonempty and segments have long been discovered: the first manifest discovers
segments 1 and 2; when segment 1 completes, the fetch for segment 2 is
dispatched and its entry leaves the queue; the refresh timer fires and the
second manifest, arriving while the fetch for segment 2 is still in flight,
finds the queue empty and immediately dispatches segment 3 — two fetches
outstanding, contradicting the claim that exactly one segment fetch is
pending or in flight. -/
theorem c1_counterexample :
    trace_legal envA driver0 c1_trace = true ∧
    segFetchCount (runEvents envA driver0 c1_trace) = 2 ∧
    (runEvents envA driver0 c1_trace).handler.segment_queue ≠ [] ∧
    trace_ok envA driver0 c1_trace = false := by
  refine ⟨by decide, by decide, by decide, by decide⟩

/-- C1 (amended): at most one segment-data `FetchData` command is pending in
the action queue or in flight at every reachable instant — and exactly one
whenever the segment queue is nonempty — provided the host interleaving
satisfies, on top of the action-protocol contract, that (a) no completion of
a superseded manifest fetch is delivered, and (b) a manifest completion is
delivered only when no segment fetch is outstanding or the advertised window
still overlaps the segment queue.  (Without (a) and (b) the property fails;
see the counterexample trace.) -/
theorem c1_single_segment_fetch_in_flight :
    ∀ (env : HostEnv) (fac : ActionFactory) (url : String) (evs : List HostEv),
      trace_ok env (Driver.init fac url) evs = true →
      segFetchCount (runEvents env (Driver.init fac url) evs) ≤ 1 ∧
      ((runEvents env (Driver.init fac url) evs).handler.segment_queue ≠ [] →
        segFetchCount (runEvents env (Driver.init fac url) evs) = 1) := by
  intro env fac url evs htr
  have hinv := trace_inv env evs (Driver.init fac url) (driverInv_init fac url) htr
  exact ⟨hinv.2.2.2.2.2.1, hinv.2.2.2.2.2.2⟩

/-- C1 witness: the guarded invariant on the concrete prefix of the
counterexample trace on which the guards still hold — after the first
manifest discovers segments 1 and 2, exactly one segment fetch is pending. -/
theorem c1_single_segment_fetch_in_flight_witness :
    trace_ok envA (Driver.init fac0 "live.m3u8") [HostEv.data 0 [1] 400] = true ∧
    (segFetchCount (runEvents envA (Driver.init fac0 "live.m3u8")
        [HostEv.data 0 [1] 400]) ≤ 1 ∧
      ((runEvents envA (Driver.init fac0 "live.m3u8")
          [HostEv.data 0 [1] 400]).handler.segment_queue ≠ [] →
        segFetchCount (runEvents envA (Driver.init fac0 "live.m3u8")
          [HostEv.data 0 [1] 400]) = 1)) :=
  ⟨by decide, c1_single_segment_fetch_in_flight envA fac0 "live.m3u8"
    [HostEv.data 0 [1] 400] (by decide)⟩

/-- C5: across every sequence of `handle_segment` calls on a fresh session,
the output queue is either still empty or consists of a first payload that is
the serialized initialization unit of one of the delivered segments followed
only by serialized media units — i.e. the initialization payload is produced
at most once, before any media payload, and every other payload pushed is a
media payload. -/
theorem c5_init_payload_first_and_once :
    ∀ (env : HostEnv) (fac : ActionFactory) (url : String) (inputs : List (List Nat)),
      (runSegments env (MediaPlaylistHandler.new fac url) inputs).buffered_segments = [] ∨
      ∃ ini ms,
        (runSegments env (MediaPlaylistHandler.new fac url) inputs).buffered_segments
          = ini :: ms ∧
        IsInitPayload env inputs ini ∧
        ∀ q ∈ ms, IsMediaPayload env inputs q := by
  intro env fac url inputs
  rcases runSegments_fresh env inputs (MediaPlaylistHandler.new fac url)
      (by simp [MediaPlaylistHandler.new]) (by simp [MediaPlaylistHandler.new]) with
    ⟨_, h2⟩ | ⟨ini, ms, h1, h2, h3⟩
  · exact Or.inl h2
  · exact Or.inr ⟨ini, ms, h1, h2, h3⟩

/-- C5 witness: delivering two segments to a fresh session in the concrete
environment yields the serialized initialization unit first, then only media
payloads. -/
theorem c5_init_payload_first_and_once_witness :
    (runSegments envA (MediaPlaylistHandler.new fac0 "live.m3u8")
      [[9], [8]]).buffered_segments = [] ∨
    ∃ ini ms,
      (runSegments envA (MediaPlaylistHandler.new fac0 "live.m3u8")
        [[9], [8]]).buffered_segments = ini :: ms ∧
      IsInitPayload envA [[9], [8]] ini ∧
      ∀ q ∈ ms, IsMediaPayload envA [[9], [8]] q :=
  c5_init_payload_first_and_once envA fac0 "live.m3u8" [[9], [8]]

/-- C2 witness: the watermark/no-duplicates invariant instantiated on a
concrete two-poll trace. -/
theorem c2_watermark_monotone_no_duplicates_witness :
    (∀ n : Nat,
      (runPolls envA (MediaPlaylistHandler.new fac0 "live.m3u8")
        ([(pl_a, 400), (pl_b, 400)].take n)).last_media_sequence ≤
      (runPolls envA (MediaPlaylistHandler.new fac0 "live.m3u8")
        ([(pl_a, 400), (pl_b, 400)].take (n + 1))).last_media_sequence) ∧
    List.Pairwise (fun a b => a.seq < b.seq)
      (runPolls envA (MediaPlaylistHandler.new fac0 "live.m3u8")
        [(pl_a, 400), (pl_b, 400)]).segment_queue ∧
    List.Pairwise (· < ·)
      (allEnqueued envA (MediaPlaylistHandler.new fac0 "live.m3u8")
        [(pl_a, 400), (pl_b, 400)]) ∧
    (allEnqueued envA (MediaPlaylistHandler.new fac0 "live.m3u8")
      [(pl_a, 400), (pl_b, 400)]).Nodup :=
  c2_watermark_monotone_no_duplicates envA fac0 "live.m3u8" [(pl_a, 400), (pl_b, 400)]

/-- C9 witness: the never-enqueue-sequence-zero property instantiated on a
concrete poll trace. -/
theorem c9_sequence_zero_never_enqueued_witness :
    ((runPolls envA (MediaPlaylistHandler.new fac0 "live.m3u8")
      [(pl_zero, 0), (pl_a, 400)]).segment_queue.all
        (fun e => decide (1 ≤ e.seq)) = true) ∧
    (handle_playlist envA (MediaPlaylistHandler.new fac0 "live.m3u8") pl_zero 0).2 = true ∧
    (handle_playlist envA (MediaPlaylistHandler.new fac0 "live.m3u8")
      pl_zero 0).1.segment_queue = [] ∧
    (handle_playlist envA (MediaPlaylistHandler.new fac0 "live.m3u8")
      pl_zero 0).1.last_media_sequence = 0 ∧
    (handle_playlist envA (MediaPlaylistHandler.new fac0 "live.m3u8")
      pl_zero 0).1.segments_total = 0 :=
  c9_sequence_zero_never_enqueued envA fac0 "live.m3u8" [(pl_zero, 0), (pl_a, 400)]

/-- C7: for the spec scenario — target duration 6 s, two new segments of 5 s
and 7 s, measured fetch round trip 400 ms — the poll succeeds, dispatches the
first segment, and arms the refresh timer with exactly 4.8 s
(min(6,5,7) = 5 s, clamped by the average (5+7)/2 = 6 s to 5 s, minus 200 ms
one-way latency). -/
theorem c7_scenario_interval :
    (handle_playlist envA (MediaPlaylistHandler.new fac0 "live.m3u8") pl_c7 400).2 = true ∧
    (handle_playlist envA (MediaPlaylistHandler.new fac0 "live.m3u8") pl_c7 400).1.action_queue
      = [⟨0, ActionKind.fetchData "live.m3u8"⟩, ⟨1, ActionKind.fetchData "seg-10"⟩,
         ⟨2, ActionKind.setTimeout 4800000000⟩] := by
  constructor
  · rfl
  · rfl

end HlsWasm
